import Mathlib

/-!
Verification of the arena-combat simulation engine
(`src/vitereact/src/game/GameLogic.ts` and companions) against its
natural-language specification.

The embedding models JavaScript numbers as `JSNum`: either a finite
rational, NaN, or a signed infinity.  Arithmetic and comparisons follow
the IEEE-754 / JS semantics that the source relies on (NaN propagates
through arithmetic, every ordered comparison involving NaN is false,
`Math.max`/`Math.min` propagate NaN, division of zero by zero is NaN).
The negative-zero distinction is not modelled; no code path inspected by
the claims can distinguish it.

Transcendental library calls (`Math.sqrt`, `Math.atan2`, `Math.cos`,
`Math.sin`) and the ambient random source (`Math.random`) are abstracted
into an `Oracle` record threaded through the step function, with the
random stream addressed by a counter held in the game state.  Theorems
that depend on a property of such a call (for example `Math.sqrt(0) = 0`)
take it as an explicit hypothesis on the oracle.

Presentational fields of the TypeScript entities that no game logic ever
reads (`id`, `color`, upgrade display names/descriptions) are omitted.
-/

/-- A JavaScript number: a finite rational, NaN, or a signed infinity
(`inf true` is `+Infinity`, `inf false` is `-Infinity`). -/
inductive JSNum where
  | num : ℚ → JSNum
  | nan : JSNum
  | inf : Bool → JSNum
deriving DecidableEq, Repr

namespace JSNum

@[reducible] instance (n : ℕ) : OfNat JSNum n := ⟨num (OfNat.ofNat n)⟩

/-- JS addition. -/
def jadd : JSNum → JSNum → JSNum
  | num a, num b => num (a + b)
  | nan, _ => nan
  | _, nan => nan
  | inf s, inf t => if s = t then inf s else nan
  | inf s, num _ => inf s
  | num _, inf s => inf s

/-- JS negation. -/
def jneg : JSNum → JSNum
  | num a => num (-a)
  | nan => nan
  | inf s => inf (!s)

/-- JS subtraction. -/
def jsub (a b : JSNum) : JSNum := jadd a (jneg b)

/-- JS multiplication. -/
def jmul : JSNum → JSNum → JSNum
  | num a, num b => num (a * b)
  | nan, _ => nan
  | _, nan => nan
  | inf s, inf t => inf (s = t)
  | inf s, num b => if b = 0 then nan else inf (s = decide (0 < b))
  | num a, inf s => if a = 0 then nan else inf (s = decide (0 < a))

/-- JS division (negative zero not modelled: a zero divisor is treated as
`+0`, which matches every division site in the embedded code, where the
divisor is a square root or a positive constant). -/
def jdiv : JSNum → JSNum → JSNum
  | num a, num b =>
      if b = 0 then (if a = 0 then nan else inf (decide (0 < a))) else num (a / b)
  | nan, _ => nan
  | _, nan => nan
  | inf s, num b => inf (s = decide (0 ≤ b))
  | num _, inf _ => num 0
  | inf _, inf _ => nan

/-- JS `<` : false whenever either side is NaN. -/
def jlt : JSNum → JSNum → Bool
  | num a, num b => decide (a < b)
  | nan, _ => false
  | _, nan => false
  | inf true, _ => false
  | _, inf true => true
  | _, inf false => false
  | inf false, _ => true

/-- JS `<=` : false whenever either side is NaN. -/
def jle : JSNum → JSNum → Bool
  | num a, num b => decide (a ≤ b)
  | nan, _ => false
  | _, nan => false
  | inf false, _ => true
  | _, inf false => false
  | _, inf true => true
  | inf true, _ => false

/-- JS `>`. -/
def jgt (a b : JSNum) : Bool := jlt b a

/-- JS `>=`. -/
def jge (a b : JSNum) : Bool := jle b a

/-- JS strict equality `===` on numbers (NaN is not equal to itself). -/
def jeq : JSNum → JSNum → Bool
  | num a, num b => decide (a = b)
  | inf s, inf t => s == t
  | _, _ => false

/-- `Math.min`: NaN if either argument is NaN. -/
def jmin (a b : JSNum) : JSNum :=
  match a, b with
  | nan, _ => nan
  | _, nan => nan
  | x, y => if jlt y x then y else x

/-- `Math.max`: NaN if either argument is NaN. -/
def jmax (a b : JSNum) : JSNum :=
  match a, b with
  | nan, _ => nan
  | _, nan => nan
  | x, y => if jlt x y then y else x

/-- JS truthiness of a number (`0` and NaN are falsy). -/
def truthy : JSNum → Bool
  | num q => decide (q ≠ 0)
  | nan => false
  | inf _ => true

/-- JS truthiness of a possibly-undefined number (`undefined` is falsy). -/
def truthyO : Option JSNum → Bool
  | none => false
  | some v => truthy v

/-- `v || d` for a possibly-undefined number `v` with default `d`
(JS returns `d` when `v` is absent or falsy). -/
def orDefault (v : Option JSNum) (d : ℚ) : JSNum :=
  match v with
  | none => num d
  | some x => if truthy x then x else num d

/-- A possibly-undefined number used in arithmetic
(JS coerces `undefined` to NaN). -/
def ofUndef : Option JSNum → JSNum
  | none => nan
  | some v => v

end JSNum

open JSNum

/-! ## Constants (`src/vitereact/src/game/constants.ts`) -/

def CANVAS_WIDTH : ℚ := 1280
def CANVAS_HEIGHT : ℚ := 720
def WALL_THICKNESS : ℚ := 50
def ARENA_X : ℚ := WALL_THICKNESS
def ARENA_Y : ℚ := WALL_THICKNESS
def ARENA_WIDTH : ℚ := CANVAS_WIDTH - WALL_THICKNESS * 2
def ARENA_HEIGHT : ℚ := CANVAS_HEIGHT - WALL_THICKNESS * 2
def PLAYER_BASE_SPEED : ℚ := 300
def PLAYER_DASH_SPEED : ℚ := 900
def PLAYER_DASH_DURATION : ℚ := 1/4
def PLAYER_DASH_COOLDOWN : ℚ := 5/2
def PLAYER_MAX_HP : ℚ := 100
def ENEMY_CHASER_HP : ℚ := 30
def ENEMY_CHASER_SPEED : ℚ := 150
def ENEMY_CHASER_DAMAGE : ℚ := 10
def ENEMY_CHASER_SIZE : ℚ := 32
def ENEMY_SHOOTER_HP : ℚ := 20
def ENEMY_SHOOTER_SPEED : ℚ := 100
def ENEMY_SHOOTER_DAMAGE : ℚ := 10
def ENEMY_SHOOTER_SIZE : ℚ := 28
def ENEMY_SHOOTER_RANGE : ℚ := 400
def ENEMY_SHOOTER_FIRE_RATE : ℚ := 1/2
def ENEMY_SHOOTER_BULLET_SPEED : ℚ := 200
def ENEMY_SHOOTER_BULLET_SIZE : ℚ := 12

/-- Modelled from the spec: the `ENEMY_TANK_*` constants are imported by
`GameLogic.ts` but absent from the repository's constants file; the spec
says the TANK "differs only in higher hp/damage/size and lower speed
(data, not logic)", so representative values satisfying that are used. -/
def ENEMY_TANK_HP : ℚ := 80

/-- Modelled from the spec: see `ENEMY_TANK_HP` (lower speed than CHASER). -/
def ENEMY_TANK_SPEED : ℚ := 80

/-- Modelled from the spec: see `ENEMY_TANK_HP` (higher damage). -/
def ENEMY_TANK_DAMAGE : ℚ := 20

/-- Modelled from the spec: see `ENEMY_TANK_HP` (larger size). -/
def ENEMY_TANK_SIZE : ℚ := 48

/-! ## Entity data model (`src/vitereact/src/game/types.ts`)

Presentational fields (`id`, `color`) are omitted: no logic reads them. -/

/-- The base `Entity` shape consumed by `checkCollision` and obstacles. -/
structure Ent where
  x : JSNum
  y : JSNum
  width : JSNum
  height : JSNum
deriving DecidableEq, Repr

/-- `Player` from `types.ts`.  The last four fields are not declared on the
TypeScript interface; they are created dynamically by certain entries of
the upgrade catalog (`player.piercing += 1`, …), so they are modelled as
possibly-undefined (`none` = the JS property is absent/`undefined`). -/
structure Player where
  x : JSNum
  y : JSNum
  width : JSNum
  height : JSNum
  markedForDeletion : Bool
  hp : JSNum
  maxHp : JSNum
  speed : JSNum
  vx : JSNum
  vy : JSNum
  dashCooldown : JSNum
  dashTimer : JSNum
  dashVx : JSNum
  dashVy : JSNum
  isInvulnerable : Bool
  invulnerabilityTimer : JSNum
  aimAngle : JSNum
  damage : JSNum
  fireRate : JSNum
  lastFired : JSNum
  bulletSpeed : JSNum
  bulletSpread : JSNum
  piercing : Option JSNum
  critChance : Option JSNum
  hasChainLightning : Option Bool
  hasOrbitingBlades : Option Bool
deriving DecidableEq, Repr

/-- The `type` tag of an enemy. -/
inductive EnemyType where
  | CHASER
  | SHOOTER
  | TANK
deriving DecidableEq, Repr

/-- `Enemy` from `types.ts` (`etype` embeds the `type` field; `type` is a
reserved word in Lean). -/
structure Enemy where
  x : JSNum
  y : JSNum
  width : JSNum
  height : JSNum
  markedForDeletion : Bool
  hp : JSNum
  maxHp : JSNum
  speed : JSNum
  vx : JSNum
  vy : JSNum
  damage : JSNum
  etype : EnemyType
  hitTimer : Option JSNum
  attackRange : Option JSNum
  fireRate : Option JSNum
  lastFired : Option JSNum
  bulletSpeed : Option JSNum
deriving DecidableEq, Repr

/-- `Bullet` from `types.ts`. -/
structure Bullet where
  x : JSNum
  y : JSNum
  width : JSNum
  height : JSNum
  markedForDeletion : Bool
  vx : JSNum
  vy : JSNum
  damage : JSNum
  isEnemy : Bool
deriving DecidableEq, Repr

def Player.toEnt (p : Player) : Ent := ⟨p.x, p.y, p.width, p.height⟩

def Enemy.toEnt (e : Enemy) : Ent := ⟨e.x, e.y, e.width, e.height⟩

def Bullet.toEnt (b : Bullet) : Ent := ⟨b.x, b.y, b.width, b.height⟩

/-- `GameState` from `types.ts`. -/
inductive GameState where
  | MENU
  | RUN
  | UPGRADE
  | PAUSE
  | GAMEOVER
  | META_MENU
  | SETTINGS
deriving DecidableEq, Repr

/-- The input contract consumed by `update` (`InputManager`): key-state
queries plus the held state of the left mouse button. -/
structure Input where
  isKeyDown : String → Bool
  mouseLeft : Bool

/-- The ambient math library and random source used by the engine.
`rand k` is the value of the `k`-th call to `Math.random()` (always a
finite number in JS, hence `ℚ`). -/
structure Oracle where
  sqrt : JSNum → JSNum
  atan2 : JSNum → JSNum → JSNum
  cos : JSNum → JSNum
  sin : JSNum → JSNum
  rand : ℕ → ℚ

/-- The mutable state owned by `GameLogic`, plus `randK`, the position in
the random stream (determinizing the ambient `Math.random`). -/
structure Game where
  player : Option Player
  state : GameState
  obstacles : List Ent
  bullets : List Bullet
  enemies : List Enemy
  currentWave : ℕ
  waveTimer : JSNum
  randK : ℕ
deriving Repr

/-! ## `GameLogic` methods -/

/-- `GameLogic.checkCollision` (lines 509–516): open-condition AABB
overlap test. -/
def checkCollision (a b : Ent) : Bool :=
  jlt (jsub a.x (jdiv a.width 2)) (jadd b.x (jdiv b.width 2)) &&
  jgt (jadd a.x (jdiv a.width 2)) (jsub b.x (jdiv b.width 2)) &&
  jlt (jsub a.y (jdiv a.height 2)) (jadd b.y (jdiv b.height 2)) &&
  jgt (jadd a.y (jdiv a.height 2)) (jsub b.y (jdiv b.height 2))

/-- `GameLogic.clampToArena` (lines 194–202), applied to an entity of the
given width/height at tentative position `(nextX, nextY)`. -/
def clampToArena (width height nextX nextY : JSNum) : JSNum × JSNum :=
  let halfW := jdiv width 2
  let halfH := jdiv height 2
  (jmax (jadd (num ARENA_X) halfW)
     (jmin (jsub (num (ARENA_X + ARENA_WIDTH)) halfW) nextX),
   jmax (jadd (num ARENA_Y) halfH)
     (jmin (jsub (num (ARENA_Y + ARENA_HEIGHT)) halfH) nextY))

/-- The player built by `GameLogic.reset` (lines 54–80). -/
def resetPlayer : Player where
  x := num (CANVAS_WIDTH / 2)
  y := num (CANVAS_HEIGHT / 2)
  width := num 32
  height := num 32
  markedForDeletion := false
  hp := num PLAYER_MAX_HP
  maxHp := num PLAYER_MAX_HP
  speed := num PLAYER_BASE_SPEED
  vx := num 0
  vy := num 0
  dashCooldown := num 0
  dashTimer := num 0
  dashVx := num 0
  dashVy := num 0
  isInvulnerable := false
  invulnerabilityTimer := num 0
  aimAngle := num 0
  damage := num 10
  fireRate := num 3
  lastFired := num 0
  bulletSpeed := num 600
  bulletSpread := num (1/10)
  piercing := none
  critChance := none
  hasChainLightning := none
  hasOrbitingBlades := none

/-- `GameLogic.fireBullet` (lines 459–480).  Returns the pushed bullet and
the advanced random-stream position (one draw for the spread, one for the
bullet id, which is not modelled further). -/
def fireBullet (o : Oracle) (p : Player) (rk : ℕ) : Bullet × ℕ :=
  let spread := jmul (jsub (num (o.rand rk)) (num (1/2))) p.bulletSpread
  let angle := jadd p.aimAngle spread
  let vx := jmul (o.cos angle) p.bulletSpeed
  let vy := jmul (o.sin angle) p.bulletSpeed
  ({ x := p.x, y := p.y, width := num 8, height := num 8,
     markedForDeletion := false, vx := vx, vy := vy,
     damage := p.damage, isEnemy := false }, rk + 2)

/-- `GameLogic.fireEnemyBullet` (lines 482–507).  One random draw for the
bullet id. -/
def fireEnemyBullet (o : Oracle) (p : Player) (e : Enemy) (rk : ℕ) :
    Bullet × ℕ :=
  let dx := jsub p.x e.x
  let dy := jsub p.y e.y
  let angle := o.atan2 dy dx
  let speed := JSNum.orDefault e.bulletSpeed ENEMY_SHOOTER_BULLET_SPEED
  ({ x := e.x, y := e.y,
     width := num ENEMY_SHOOTER_BULLET_SIZE,
     height := num ENEMY_SHOOTER_BULLET_SIZE,
     markedForDeletion := false,
     vx := jmul (o.cos angle) speed, vy := jmul (o.sin angle) speed,
     damage := e.damage, isEnemy := true }, rk + 1)

/-- One enemy of `GameLogic.spawnWave` (lines 95–191): type selection,
edge placement, and per-type stats.  Returns the enemy and the advanced
random-stream position. -/
def spawnOne (o : Oracle) (wave : ℕ) (rk : ℕ) : Enemy × ℕ :=
  let (ty, rk) :=
    if wave ≥ 3 then
      let r := o.rand rk
      ((if r < (1/5 : ℚ) then EnemyType.TANK
        else if r < (3/5 : ℚ) then EnemyType.SHOOTER
        else EnemyType.CHASER), rk + 1)
    else if wave ≥ 2 then
      ((if o.rand rk > (1/2 : ℚ) then EnemyType.SHOOTER else EnemyType.CHASER),
       rk + 1)
    else (EnemyType.CHASER, rk)
  let edge : ℤ := ⌊o.rand rk * 4⌋
  let rk := rk + 1
  let padding : ℚ := 50
  let (x, y, rk) :=
    if edge = 0 then
      (ARENA_X + o.rand rk * ARENA_WIDTH, ARENA_Y + padding, rk + 1)
    else if edge = 1 then
      (ARENA_X + ARENA_WIDTH - padding, ARENA_Y + o.rand rk * ARENA_HEIGHT, rk + 1)
    else if edge = 2 then
      (ARENA_X + o.rand rk * ARENA_WIDTH, ARENA_Y + ARENA_HEIGHT - padding, rk + 1)
    else
      (ARENA_X + padding, ARENA_Y + o.rand rk * ARENA_HEIGHT, rk + 1)
  let base : Enemy :=
    match ty with
    | EnemyType.CHASER =>
      { x := num x, y := num y,
        width := num ENEMY_CHASER_SIZE, height := num ENEMY_CHASER_SIZE,
        markedForDeletion := false,
        hp := num ENEMY_CHASER_HP, maxHp := num ENEMY_CHASER_HP,
        speed := num ENEMY_CHASER_SPEED, vx := num 0, vy := num 0,
        damage := num ENEMY_CHASER_DAMAGE, etype := EnemyType.CHASER,
        hitTimer := none, attackRange := none, fireRate := none,
        lastFired := none, bulletSpeed := none }
    | EnemyType.TANK =>
      { x := num x, y := num y,
        width := num ENEMY_TANK_SIZE, height := num ENEMY_TANK_SIZE,
        markedForDeletion := false,
        hp := num ENEMY_TANK_HP, maxHp := num ENEMY_TANK_HP,
        speed := num ENEMY_TANK_SPEED, vx := num 0, vy := num 0,
        damage := num ENEMY_TANK_DAMAGE, etype := EnemyType.TANK,
        hitTimer := none, attackRange := none, fireRate := none,
        lastFired := none, bulletSpeed := none }
    | EnemyType.SHOOTER =>
      { x := num x, y := num y,
        width := num ENEMY_SHOOTER_SIZE, height := num ENEMY_SHOOTER_SIZE,
        markedForDeletion := false,
        hp := num ENEMY_SHOOTER_HP, maxHp := num ENEMY_SHOOTER_HP,
        speed := num ENEMY_SHOOTER_SPEED, vx := num 0, vy := num 0,
        damage := num ENEMY_SHOOTER_DAMAGE, etype := EnemyType.SHOOTER,
        hitTimer := none,
        attackRange := some (num ENEMY_SHOOTER_RANGE),
        fireRate := some (num ENEMY_SHOOTER_FIRE_RATE),
        lastFired := some (num 0),
        bulletSpeed := some (num ENEMY_SHOOTER_BULLET_SPEED) }
  (base, rk)

/-- The loop of `GameLogic.spawnWave`, producing `n` enemies in order. -/
def spawnList (o : Oracle) (wave : ℕ) : ℕ → ℕ → List Enemy × ℕ
  | 0, rk => ([], rk)
  | n + 1, rk =>
    let r := spawnOne o wave rk
    let q := spawnList o wave n r.2
    (r.1 :: q.1, q.2)

/-- `GameLogic.spawnWave` (lines 92–192): wave size is
`2 + Math.floor(currentWave * 1.5)`. -/
def spawnWave (o : Oracle) (wave : ℕ) (rk : ℕ) : List Enemy × ℕ :=
  spawnList o wave (2 + 3 * wave / 2) rk

/-- Body-contact damage to the player from one enemy
(`update`, lines 300–304). -/
def contactDamage (p : Player) (e : Enemy) : Player :=
  if checkCollision e.toEnt p.toEnt && !p.isInvulnerable &&
      jle p.invulnerabilityTimer 0 then
    let hp := jsub p.hp e.damage
    let hp := if jlt hp 0 then num 0 else hp
    { p with hp := hp, invulnerabilityTimer := num 1 }
  else p

/-- Per-axis obstacle resolution shared by the player (lines 275–282) and
enemies (lines 356–363): for each obstacle, test the X-only move first
and revert X if blocked, then test the resulting position with the Y move
and revert Y if blocked. -/
def resolveObstacles (obstacles : List Ent) (width height oldX oldY : JSNum)
    (start : JSNum × JSNum) : JSNum × JSNum :=
  obstacles.foldl (fun a obs =>
    let fx1 := if checkCollision ⟨a.1, oldY, width, height⟩ obs then oldX else a.1
    let fy1 := if checkCollision ⟨fx1, a.2, width, height⟩ obs then oldY else a.2
    (fx1, fy1)) start

/-- The anti-stacking separation nudge (lines 369–381).  `enemies` is the
current array and `i` the index of the enemy being processed; the
reference-equality self-skip of the source becomes an index skip. -/
def separation (o : Oracle) (enemies : List Enemy) (i : ℕ) (e : Enemy)
    (start : JSNum × JSNum) : JSNum × JSNum :=
  (List.range enemies.length).foldl
    (fun (a : JSNum × JSNum) j =>
      if j = i then a else
      match enemies.get? j with
      | none => a
      | some other =>
        if checkCollision e.toEnt other.toEnt then
          let pushX := jsub e.x other.x
          let pushY := jsub e.y other.y
          let len := o.sqrt (jadd (jmul pushX pushX) (jmul pushY pushY))
          if jgt len 0 then
            (jadd a.1 (jmul (jdiv pushX len) 1),
             jadd a.2 (jmul (jdiv pushY len) 1))
          else a
        else a) start

/-- The type-specific AI of one enemy (lines 306–343): desired velocity
and, for shooters, the fire cadence.  Returns the velocity, the enemy
(with an updated `lastFired`), the bullets (extended if the shooter
fired), and the advanced random-stream position. -/
def enemyAI (o : Oracle) (dt : JSNum) (e : Enemy) (p : Player)
    (bullets : List Bullet) (rk : ℕ) :
    (JSNum × JSNum) × Enemy × List Bullet × ℕ :=
  let dx := jsub p.x e.x
  let dy := jsub p.y e.y
  let dist := o.sqrt (jadd (jmul dx dx) (jmul dy dy))
  match e.etype with
  | EnemyType.CHASER | EnemyType.TANK =>
    if jgt dist 0 then
      ((jmul (jdiv dx dist) e.speed, jmul (jdiv dy dist) e.speed),
       e, bullets, rk)
    else ((num 0, num 0), e, bullets, rk)
  | EnemyType.SHOOTER =>
    let range := JSNum.orDefault e.attackRange ENEMY_SHOOTER_RANGE
    let mv :=
      if jgt dist (jadd range 50) then
        (jmul (jdiv dx dist) e.speed, jmul (jdiv dy dist) e.speed)
      else if jlt dist (jsub range 50) then
        (jmul (jneg (jdiv dx dist)) e.speed,
         jmul (jneg (jdiv dy dist)) e.speed)
      else (num 0, num 0)
    if e.lastFired.isSome && JSNum.truthyO e.fireRate then
      let lf := jadd (JSNum.ofUndef e.lastFired) dt
      if jge lf (jdiv 1 (JSNum.ofUndef e.fireRate)) then
        let (b, rk') := fireEnemyBullet o p e rk
        (mv, { e with lastFired := some (num 0) }, bullets ++ [b], rk')
      else (mv, { e with lastFired := some lf }, bullets, rk)
    else (mv, e, bullets, rk)

/-- Hit-flash decay (lines 365–367). -/
def hitTimerDecay (dt : JSNum) (e : Enemy) : Enemy :=
  if JSNum.truthyO e.hitTimer && jgt (JSNum.ofUndef e.hitTimer) 0
  then { e with hitTimer := some (jsub (JSNum.ofUndef e.hitTimer) dt) }
  else e

/-- AI movement, shooter fire cadence, clamping, obstacle resolution,
hit-flash decay and the separation nudge for one enemy
(`update`, lines 306–384). -/
def enemyMove (o : Oracle) (dt : JSNum) (obstacles : List Ent)
    (enemies : List Enemy) (i : ℕ) (e : Enemy) (p : Player)
    (bullets : List Bullet) (rk : ℕ) : Enemy × List Bullet × ℕ :=
  let r := enemyAI o dt e p bullets rk
  let e := { r.2.1 with vx := r.1.1, vy := r.1.2 }
  let c := clampToArena e.width e.height
      (jadd e.x (jmul e.vx dt)) (jadd e.y (jmul e.vy dt))
  let f := resolveObstacles obstacles e.width e.height e.x e.y c
  let e := hitTimerDecay dt e
  let f := separation o enemies i e f
  ({ e with x := f.1, y := f.2 }, r.2.2.1, r.2.2.2)

/-- One iteration of the enemy loop (`update`, lines 298–385): contact
damage, then movement/attack processing, writing the enemy back at its
index. -/
def enemyStep (o : Oracle) (dt : JSNum) (obstacles : List Ent)
    (enemies : List Enemy) (p : Player) (bullets : List Bullet) (rk : ℕ)
    (i : ℕ) : List Enemy × Player × List Bullet × ℕ :=
  match enemies.get? i with
  | none => (enemies, p, bullets, rk)
  | some e =>
    let p := contactDamage p e
    let r := enemyMove o dt obstacles enemies i e p bullets rk
    (enemies.set i r.1, p, r.2.1, r.2.2)

/-- The enemy loop, processing indices `i, i+1, …` while fuel lasts. -/
def enemyLoop (o : Oracle) (dt : JSNum) (obstacles : List Ent) :
    ℕ → ℕ → List Enemy → Player → List Bullet → ℕ →
    List Enemy × Player × List Bullet × ℕ
  | _, 0, enemies, p, bullets, rk => (enemies, p, bullets, rk)
  | i, fuel + 1, enemies, p, bullets, rk =>
    let r := enemyStep o dt obstacles enemies p bullets rk i
    enemyLoop o dt obstacles (i + 1) fuel r.1 r.2.1 r.2.2.1 r.2.2.2

/-- Aiming and the cooldown decrements (lines 208–219). -/
def aimCooldowns (o : Oracle) (dt : JSNum) (mouseX mouseY : JSNum)
    (p : Player) : Player :=
  let dx := jsub mouseX p.x
  let dy := jsub mouseY p.y
  let p := { p with aimAngle := o.atan2 dy dx }
  let p := if jgt p.dashCooldown 0
           then { p with dashCooldown := jsub p.dashCooldown dt } else p
  if jgt p.invulnerabilityTimer 0
  then { p with invulnerabilityTimer := jsub p.invulnerabilityTimer dt }
  else p

/-- The 4-directional digital movement intent, normalized to unit length
when non-zero (lines 236–248).  The comparisons with `0` are the JS
strict inequalities `mx !== 0 || my !== 0` of lines 244 and 252. -/
def moveIntent (o : Oracle) (input : Input) : JSNum × JSNum :=
  let my := jadd
    (if input.isKeyDown "KeyW" || input.isKeyDown "ArrowUp"
     then num (-1) else num 0)
    (if input.isKeyDown "KeyS" || input.isKeyDown "ArrowDown"
     then num 1 else num 0)
  let mx := jadd
    (if input.isKeyDown "KeyA" || input.isKeyDown "ArrowLeft"
     then num (-1) else num 0)
    (if input.isKeyDown "KeyD" || input.isKeyDown "ArrowRight"
     then num 1 else num 0)
  if !(jeq mx 0) || !(jeq my 0) then
    let length := o.sqrt (jadd (jmul mx mx) (jmul my my))
    (jdiv mx length, jdiv my length)
  else (mx, my)

/-- Dash / normal displacement (lines 221–267): returns the player (with
updated dash state) and the tentative next position. -/
def dashDisplacement (o : Oracle) (dt : JSNum) (input : Input)
    (p : Player) : Player × JSNum × JSNum :=
  if jgt p.dashTimer 0 then
    let p2 := { p with dashTimer := jsub p.dashTimer dt }
    let nX := jadd p2.x (jmul p2.dashVx dt)
    let nY := jadd p2.y (jmul p2.dashVy dt)
    if jle p2.dashTimer 0 then
      ({ p2 with isInvulnerable := false, dashTimer := num 0 }, nX, nY)
    else (p2, nX, nY)
  else
    let mv := moveIntent o input
    if input.isKeyDown "Space" && jle p.dashCooldown 0 &&
        (!(jeq mv.1 0) || !(jeq mv.2 0)) then
      let p2 := { p with dashTimer := num PLAYER_DASH_DURATION,
                         dashCooldown := num PLAYER_DASH_COOLDOWN,
                         isInvulnerable := true,
                         dashVx := jmul mv.1 (num PLAYER_DASH_SPEED),
                         dashVy := jmul mv.2 (num PLAYER_DASH_SPEED) }
      (p2, jadd p2.x (jmul p2.dashVx dt), jadd p2.y (jmul p2.dashVy dt))
    else
      (p, jadd p.x (jmul mv.1 (jmul p.speed dt)),
          jadd p.y (jmul mv.2 (jmul p.speed dt)))

/-- Aiming, cooldown decrement, dash / normal displacement, arena clamp
and per-axis obstacle resolution for the player
(`update`, lines 208–285). -/
def movePlayer (o : Oracle) (dt : JSNum) (input : Input)
    (mouseX mouseY : JSNum) (obstacles : List Ent) (p : Player) : Player :=
  let d := dashDisplacement o dt input (aimCooldowns o dt mouseX mouseY p)
  let p := d.1
  let c := clampToArena p.width p.height d.2.1 d.2.2
  let f := resolveObstacles obstacles p.width p.height p.x p.y c
  { p with x := f.1, y := f.2 }

/-- Wave progression (`update`, lines 287–295). -/
def wavePhase (o : Oracle) (dt : JSNum) (enemies : List Enemy)
    (wave : ℕ) (waveTimer : JSNum) (rk : ℕ) :
    List Enemy × ℕ × JSNum × ℕ :=
  if enemies.length = 0 then
    let wt := jadd waveTimer dt
    if jge wt 2 then
      let r := spawnWave o (wave + 1) rk
      (enemies ++ r.1, wave + 1, num 0, r.2)
    else (enemies, wave, wt, rk)
  else (enemies, wave, waveTimer, rk)

/-- Player fire control (`update`, lines 387–395). -/
def firePhase (o : Oracle) (dt : JSNum) (input : Input)
    (p : Player) (bullets : List Bullet) (rk : ℕ) :
    Player × List Bullet × ℕ :=
  let p := { p with lastFired := jadd p.lastFired dt }
  if input.mouseLeft then
    let fireInterval := jdiv 1 p.fireRate
    if jge p.lastFired fireInterval then
      let r := fireBullet o p rk
      ({ p with lastFired := num 0 }, bullets ++ [r.1], r.2)
    else (p, bullets, rk)
  else (p, bullets, rk)

/-- The wall test of the bullet pass (`update`, line 404). -/
def outOfArena (b : Bullet) : Bool :=
  jlt b.x (num ARENA_X) || jgt b.x (num (ARENA_X + ARENA_WIDTH)) ||
  jlt b.y (num ARENA_Y) || jgt b.y (num (ARENA_Y + ARENA_HEIGHT))

/-- Player-bullet impact on the first overlapping enemy, in array order
(`update`, lines 431–442); returns whether a hit consumed the bullet. -/
def hitFirstEnemy (b : Bullet) : List Enemy → List Enemy × Bool
  | [] => ([], false)
  | e :: es =>
    if checkCollision b.toEnt e.toEnt then
      let e := { e with hp := jsub e.hp b.damage, hitTimer := some (num (1/10)) }
      let e := if jle e.hp 0 then { e with markedForDeletion := true } else e
      (e :: es, true)
    else
      let r := hitFirstEnemy b es
      (e :: r.1, r.2)

/-- Velocity integration, the wall check and the obstacle check for one
bullet (`update`, lines 400–414). -/
def integrateBullet (dt : JSNum) (obstacles : List Ent) (b : Bullet) : Bullet :=
  let b := { b with x := jadd b.x (jmul b.vx dt), y := jadd b.y (jmul b.vy dt) }
  let b := if outOfArena b then { b with markedForDeletion := true } else b
  if obstacles.any (fun obs => checkCollision b.toEnt obs)
  then { b with markedForDeletion := true } else b

/-- Integration and collision handling for one bullet
(`update`, lines 399–444). -/
def bulletStep (dt : JSNum) (obstacles : List Ent) (b : Bullet)
    (p : Player) (es : List Enemy) : Bullet × Player × List Enemy :=
  let b := integrateBullet dt obstacles b
  if !b.markedForDeletion then
    if b.isEnemy then
      if !p.isInvulnerable && jle p.invulnerabilityTimer 0 &&
          checkCollision b.toEnt p.toEnt then
        let hp := jsub p.hp b.damage
        let hp := if jle hp 0 then num 0 else hp
        ({ b with markedForDeletion := true },
         { p with hp := hp, invulnerabilityTimer := num 1 }, es)
      else (b, p, es)
    else
      let r := hitFirstEnemy b es
      ((if r.2 then { b with markedForDeletion := true } else b), p, r.1)
  else (b, p, es)

/-- The bullet pass (`update`, lines 398–449).  The source iterates the
array backwards, splicing marked bullets; accordingly the tail of the
list (the higher indices) is processed first and survivors keep their
order. -/
def bulletPass (dt : JSNum) (obstacles : List Ent) :
    List Bullet → Player → List Enemy →
    List Bullet × Player × List Enemy
  | [], p, es => ([], p, es)
  | b :: rest, p, es =>
    let r := bulletPass dt obstacles rest p es
    let s := bulletStep dt obstacles b r.2.1 r.2.2
    ((if s.1.markedForDeletion then r.1 else s.1 :: r.1), s.2.1, s.2.2)

/-- Everything `GameLogic.update` does in the RUN state with a player
present, up to but not including the final dead-enemy cleanup
(lines 208–449). -/
def stepPipeline (o : Oracle) (dt : JSNum) (input : Input)
    (mouseX mouseY : JSNum) (g : Game) (p0 : Player) :
    Player × List Bullet × List Enemy × ℕ × JSNum × ℕ :=
  let p := movePlayer o dt input mouseX mouseY g.obstacles p0
  let w := wavePhase o dt g.enemies g.currentWave g.waveTimer g.randK
  let l := enemyLoop o dt g.obstacles 0 w.1.length w.1 p g.bullets w.2.2.2
  let f := firePhase o dt input l.2.1 l.2.2.1 l.2.2.2
  let bp := bulletPass dt g.obstacles f.2.1 f.1 l.1
  (bp.2.1, bp.1, bp.2.2, w.2.1, w.2.2.1, f.2.2)

/-- `GameLogic.update` (lines 204–457): a no-op unless the state is RUN
and a player exists; otherwise the pipeline above followed by the
dead-enemy cleanup (lines 451–456). -/
def update (o : Oracle) (dt : JSNum) (input : Input)
    (mouseX mouseY : JSNum) (g : Game) : Game :=
  if g.state ≠ GameState.RUN then g
  else match g.player with
  | none => g
  | some p0 =>
    let r := stepPipeline o dt input mouseX mouseY g p0
    { g with player := some r.1, bullets := r.2.1,
             enemies := r.2.2.1.filter (fun e => !e.markedForDeletion),
             currentWave := r.2.2.2.1, waveTimer := r.2.2.2.2.1,
             randK := r.2.2.2.2.2 }

/-! ## The upgrade catalog (concatenated with
`src/vitereact/src/game/enemy_damage.test.ts`; display name and
description strings omitted) -/

/-- Upgrade rarity tags. -/
inductive Rarity where
  | common
  | rare
  | epic
  | legendary
deriving DecidableEq, Repr

/-- One entry of the upgrade catalog: an id, a rarity, and the in-place
stat mutation (modelled functionally). -/
structure Upgrade where
  id : String
  rarity : Rarity
  apply : Player → Player

/-- The `UPGRADES` catalog.  The `piercing` and `crit_master` entries
update the `piercing` / `critChance` properties, which the `Player`
interface does not declare and `reset` does not initialize; JS evaluates
`undefined + 1` as NaN, which `JSNum.ofUndef` reproduces. -/
def UPGRADES : List Upgrade := [
  ⟨"health_boost", Rarity.common, fun p =>
    { p with maxHp := jadd p.maxHp 20, hp := jadd p.hp 20 }⟩,
  ⟨"damage_up", Rarity.common, fun p =>
    { p with damage := jadd p.damage 2 }⟩,
  ⟨"fire_rate", Rarity.rare, fun p =>
    { p with fireRate := jmul p.fireRate (num (11/10)) }⟩,
  ⟨"speed_up", Rarity.common, fun p =>
    { p with speed := jmul p.speed (num (11/10)) }⟩,
  ⟨"laser_focus", Rarity.rare, fun p =>
    { p with bulletSpread := jmul p.bulletSpread (num (4/5)) }⟩,
  ⟨"bullet_speed", Rarity.common, fun p =>
    { p with bulletSpeed := jmul p.bulletSpeed (num (6/5)) }⟩,
  ⟨"full_heal", Rarity.rare, fun p =>
    { p with hp := p.maxHp }⟩,
  ⟨"piercing", Rarity.common, fun p =>
    { p with piercing := some (jadd (JSNum.ofUndef p.piercing) 1) }⟩,
  ⟨"crit_master", Rarity.rare, fun p =>
    { p with critChance := some (jadd (JSNum.ofUndef p.critChance) (num (3/20))) }⟩,
  ⟨"chain_lightning", Rarity.epic, fun p =>
    { p with hasChainLightning := some true }⟩,
  ⟨"orbiting_blades", Rarity.legendary, fun p =>
    { p with hasOrbitingBlades := some true }⟩]

/-! ## Concrete fixtures used by scenario theorems and witnesses -/

/-- A concrete stand-in for the ambient math library, agreeing with the
real one at every point the scenario theorems below query it:
`sqrt 0 = 0`, `atan2 0 0 = 0`; `cos`/`sin` stand for an aim pointing
along the positive x axis; the random stream is constantly `1/2`, making
the bullet spread offset `(1/2 - 1/2)·spread = 0`. -/
def oracleK : Oracle where
  sqrt := fun _ => num 0
  atan2 := fun _ _ => num 0
  cos := fun _ => num 1
  sin := fun _ => num 0
  rand := fun _ => 1/2

/-- No keys held, fire trigger released. -/
def inputNone : Input := ⟨fun _ => false, false⟩

/-- No keys held, fire trigger held. -/
def inputFire : Input := ⟨fun _ => false, true⟩

/-- A RUN-state game with a freshly reset player and nothing else. -/
def gBase : Game where
  player := some resetPlayer
  state := GameState.RUN
  obstacles := []
  bullets := []
  enemies := []
  currentWave := 1
  waveTimer := num 0
  randK := 0

/-- A stationary chaser-type enemy sitting exactly at the arena center
(the player's reset position), dealing 10 contact damage. -/
def chaserOnPlayer : Enemy where
  x := num 640
  y := num 360
  width := num ENEMY_CHASER_SIZE
  height := num ENEMY_CHASER_SIZE
  markedForDeletion := false
  hp := num ENEMY_CHASER_HP
  maxHp := num ENEMY_CHASER_HP
  speed := num 0
  vx := num 0
  vy := num 0
  damage := num ENEMY_CHASER_DAMAGE
  etype := EnemyType.CHASER
  hitTimer := none
  attackRange := none
  fireRate := none
  lastFired := none
  bulletSpeed := none

/-- A SHOOTER enemy positioned exactly at the arena center (the player's
reset position), with the stats `spawnWave` gives shooters. -/
def shooterOnPlayer : Enemy where
  x := num 640
  y := num 360
  width := num ENEMY_SHOOTER_SIZE
  height := num ENEMY_SHOOTER_SIZE
  markedForDeletion := false
  hp := num ENEMY_SHOOTER_HP
  maxHp := num ENEMY_SHOOTER_HP
  speed := num ENEMY_SHOOTER_SPEED
  vx := num 0
  vy := num 0
  damage := num ENEMY_SHOOTER_DAMAGE
  etype := EnemyType.SHOOTER
  hitTimer := none
  attackRange := some (num ENEMY_SHOOTER_RANGE)
  fireRate := some (num ENEMY_SHOOTER_FIRE_RATE)
  lastFired := some (num 0)
  bulletSpeed := some (num ENEMY_SHOOTER_BULLET_SPEED)

/-- A stationary player-owned bullet resting at the arena center. -/
def bulletCenter : Bullet where
  x := num 640
  y := num 360
  width := num 8
  height := num 8
  markedForDeletion := false
  vx := num 0
  vy := num 0
  damage := num 10
  isEnemy := false

/-! ## Basic computation lemmas for `JSNum` -/

theorem jadd_num (a b : ℚ) : jadd (num a) (num b) = num (a + b) := rfl

theorem jneg_num (a : ℚ) : jneg (num a) = num (-a) := rfl

theorem jsub_num (a b : ℚ) : jsub (num a) (num b) = num (a - b) := by
  simp [jsub, jadd, jneg, sub_eq_add_neg]

theorem jdiv_num (a b : ℚ) (h : b ≠ 0) : jdiv (num a) (num b) = num (a / b) := by
  simp [jdiv, h]

theorem jlt_num (a b : ℚ) : jlt (num a) (num b) = decide (a < b) := rfl

theorem jle_num (a b : ℚ) : jle (num a) (num b) = decide (a ≤ b) := rfl

theorem jgt_num (a b : ℚ) : jgt (num a) (num b) = decide (b < a) := rfl

theorem jge_num (a b : ℚ) : jge (num a) (num b) = decide (b ≤ a) := rfl

theorem jsnum_ofNat (n : ℕ) [n.AtLeastTwo] :
    (OfNat.ofNat n : JSNum) = num (OfNat.ofNat n) := rfl

theorem jsnum_zero : (0 : JSNum) = num 0 := rfl

theorem jsnum_one : (1 : JSNum) = num 1 := rfl

/-! ## Claim theorems -/

/-- C8: `checkCollision` is a pure function of the two boxes, it is
symmetric, and on finite entities it returns `true` exactly when the
center distances on both axes are strictly below the summed half-extents
(edge-touching boxes do not overlap). -/
theorem checkCollision_correct :
    (∀ a b : Ent, checkCollision a b = checkCollision b a) ∧
    (∀ ax ay aw ah bx bz bw bh : ℚ,
      checkCollision ⟨num ax, num ay, num aw, num ah⟩
          ⟨num bx, num bz, num bw, num bh⟩ = true ↔
        (|ax - bx| < (aw + bw) / 2 ∧ |ay - bz| < (ah + bh) / 2)) := by
  constructor
  · intro a b
    simp only [checkCollision, jgt]
    cases h1 : jlt (jsub a.x (jdiv a.width 2)) (jadd b.x (jdiv b.width 2)) <;>
    cases h2 : jlt (jsub b.x (jdiv b.width 2)) (jadd a.x (jdiv a.width 2)) <;>
    cases h3 : jlt (jsub a.y (jdiv a.height 2)) (jadd b.y (jdiv b.height 2)) <;>
    cases h4 : jlt (jsub b.y (jdiv b.height 2)) (jadd a.y (jdiv a.height 2)) <;>
    simp [h1, h2, h3, h4]
  · intro ax ay aw ah bx bz bw bh
    have h2 : (2 : ℚ) ≠ 0 := by norm_num
    simp only [checkCollision, jgt, jsnum_ofNat, jdiv_num _ _ h2, jsub_num,
      jadd_num, jlt_num, Bool.and_eq_true, decide_eq_true_eq]
    rw [abs_sub_lt_iff, abs_sub_lt_iff]
    constructor
    · rintro ⟨⟨⟨u1, u2⟩, u3⟩, u4⟩
      exact ⟨⟨by linarith, by linarith⟩, ⟨by linarith, by linarith⟩⟩
    · rintro ⟨⟨u1, u2⟩, ⟨u3, u4⟩⟩
      exact ⟨⟨⟨by linarith, by linarith⟩, by linarith⟩, by linarith⟩

/-- A RUN-state game containing only the player and a SHOOTER enemy
standing exactly at the player's position. -/
def gShooterZero : Game := { gBase with enemies := [shooterOnPlayer] }

/-- C2 (refuted; the spec's demanded defense is absent): `update` applies
a malformed `dt` unsanitized.  With `dt = NaN` and no input, the player's
x position becomes NaN (via `x + 0 · (speed · NaN)`), while `dt = 0`
leaves it at the arena center; with `dt = -1`, `lastFired` accumulates to
`-1` instead of the `0` produced by `dt = 0`.  So `update` on a negative
or non-finite `dt` is not equivalent to `update` with `dt = 0`. -/
theorem update_malformed_dt_not_treated_as_zero :
    (update oracleK JSNum.nan inputNone (num 700) (num 360) gBase).player.map
        Player.x = some JSNum.nan ∧
    (update oracleK (num 0) inputNone (num 700) (num 360) gBase).player.map
        Player.x = some (num 640) ∧
    (update oracleK (num (-1)) inputNone (num 700) (num 360) gBase).player.map
        Player.lastFired = some (num (-1)) ∧
    (update oracleK (num 0) inputNone (num 700) (num 360) gBase).player.map
        Player.lastFired = some (num 0) := by
  refine ⟨?_, ?_, ?_, ?_⟩ <;>
    · set_option maxRecDepth 100000 in with_unfolding_all decide

/-- C9 (refuted; two catalog entries corrupt stats): the `piercing` and
`crit_master` upgrades update properties the `Player` type does not
declare and `reset` does not initialize, so on a freshly reset player JS
computes `undefined + 1` resp. `undefined + 0.15`, leaving NaN in the
stat. -/
theorem upgrades_piercing_critChance_become_nan :
    (UPGRADES.find? (fun u => u.id == "piercing")).map
        (fun u => (u.apply resetPlayer).piercing) = some (some JSNum.nan) ∧
    (UPGRADES.find? (fun u => u.id == "crit_master")).map
        (fun u => (u.apply resetPlayer).critChance) = some (some JSNum.nan) := by
  refine ⟨?_, ?_⟩ <;> · with_unfolding_all decide

/-- C10 (refuted; division by zero): with a SHOOTER standing exactly at
the player's position, `dist = Math.sqrt(0) = 0` falls into the retreat
branch (`0 < range - 50`), and the unguarded `dx / dist` evaluates
`0 / 0 = NaN`; the enemy's velocity and position are NaN after the
update.  The CHASER/TANK branch guards `dist > 0`; the SHOOTER branch
does not. -/
theorem shooter_at_player_position_becomes_nan :
    (update oracleK (num (1/10)) inputNone (num 640) (num 360)
        gShooterZero).enemies.map (fun e => (e.vx, e.vy, e.x, e.y)) =
      [(JSNum.nan, JSNum.nan, JSNum.nan, JSNum.nan)] := by
  set_option maxRecDepth 100000 in with_unfolding_all decide
/-! ## Invariant predicates -/

/-- `hp` is a finite rational within `[0, maxHp]`. -/
def Player.hpOk (p : Player) : Prop :=
  ∃ h m : ℚ, p.hp = num h ∧ p.maxHp = num m ∧ 0 ≤ h ∧ h ≤ m

/-- The enemy's contact damage is a finite nonnegative number (true of
every enemy the game spawns). -/
def Enemy.dmgOk (e : Enemy) : Prop := ∃ d : ℚ, e.damage = num d ∧ 0 ≤ d

/-- The bullet's damage is a finite nonnegative number (true of every
bullet the game fires). -/
def Bullet.dmgOk (b : Bullet) : Prop := ∃ d : ℚ, b.damage = num d ∧ 0 ≤ d

/-- The player's weapon damage is a finite nonnegative number. -/
def Player.dmgOk (p : Player) : Prop := ∃ d : ℚ, p.damage = num d ∧ 0 ≤ d

/-! ## Frame and preservation lemmas for the pipeline stages -/

theorem contactDamage_frame (p : Player) (e : Enemy) :
    ∃ h t, contactDamage p e = { p with hp := h, invulnerabilityTimer := t } := by
  unfold contactDamage
  split
  · exact ⟨_, _, rfl⟩
  · exact ⟨p.hp, p.invulnerabilityTimer, rfl⟩

theorem contactDamage_hpOk (p : Player) (e : Enemy)
    (hd : e.dmgOk) (hp : p.hpOk) : (contactDamage p e).hpOk := by
  obtain ⟨d, hd1, hd2⟩ := hd
  obtain ⟨h, m, h1, h2, h3, h4⟩ := hp
  unfold contactDamage Player.hpOk
  split
  · simp only [h1, hd1, jsub_num]
    by_cases hlt : h - d < 0
    · refine ⟨0, m, ?_, h2, le_refl 0, le_trans h3 h4⟩
      simp [jsnum_zero, jlt_num, hlt]
    · refine ⟨h - d, m, ?_, h2, not_lt.mp hlt, by linarith⟩
      simp [jsnum_zero, jlt_num, hlt]
  · exact ⟨h, m, h1, h2, h3, h4⟩

theorem contactDamage_blocked (p : Player) (e : Enemy)
    (hb : p.isInvulnerable = true ∨ jle p.invulnerabilityTimer 0 = false) :
    contactDamage p e = p := by
  unfold contactDamage
  rcases hb with hb | hb <;> simp [hb]

theorem aimCooldowns_frame (o : Oracle) (dt mouseX mouseY : JSNum) (p : Player) :
    ∃ aim cd it, aimCooldowns o dt mouseX mouseY p =
      { p with aimAngle := aim, dashCooldown := cd, invulnerabilityTimer := it } := by
  unfold aimCooldowns
  dsimp only
  split <;> split <;> exact ⟨_, _, _, rfl⟩

theorem dashDisplacement_frame (o : Oracle) (dt : JSNum) (input : Input)
    (p : Player) :
    ∃ dtm dcd dvx dvy inv, (dashDisplacement o dt input p).1 =
      { p with dashTimer := dtm, dashCooldown := dcd,
               dashVx := dvx, dashVy := dvy, isInvulnerable := inv } := by
  unfold dashDisplacement
  dsimp only
  split
  · split
    · exact ⟨_, p.dashCooldown, p.dashVx, p.dashVy, _, rfl⟩
    · exact ⟨_, p.dashCooldown, p.dashVx, p.dashVy, p.isInvulnerable, rfl⟩
  · split
    · exact ⟨_, _, _, _, _, rfl⟩
    · exact ⟨p.dashTimer, p.dashCooldown, p.dashVx, p.dashVy, p.isInvulnerable, rfl⟩

theorem movePlayer_frame (o : Oracle) (dt : JSNum) (input : Input)
    (mouseX mouseY : JSNum) (obstacles : List Ent) (p : Player) :
    ∃ aim cd it dtm dvx dvy inv xx yy,
      movePlayer o dt input mouseX mouseY obstacles p =
        { p with aimAngle := aim, dashCooldown := cd,
                 invulnerabilityTimer := it, dashTimer := dtm,
                 dashVx := dvx, dashVy := dvy, isInvulnerable := inv,
                 x := xx, y := yy } := by
  obtain ⟨aim, cd, it, h1⟩ := aimCooldowns_frame o dt mouseX mouseY p
  obtain ⟨dtm, dcd, dvx, dvy, inv, h2⟩ :=
    dashDisplacement_frame o dt input (aimCooldowns o dt mouseX mouseY p)
  unfold movePlayer
  dsimp only
  rw [h2, h1]
  exact ⟨aim, dcd, it, dtm, dvx, dvy, inv, _, _, rfl⟩

theorem aimCooldowns_invuln (o : Oracle) (dt mouseX mouseY : JSNum) (p : Player) :
    (aimCooldowns o dt mouseX mouseY p).invulnerabilityTimer =
      if jgt p.invulnerabilityTimer 0 then jsub p.invulnerabilityTimer dt
      else p.invulnerabilityTimer := by
  unfold aimCooldowns
  dsimp only
  split <;> split <;> rfl

theorem movePlayer_stats (o : Oracle) (dt : JSNum) (input : Input)
    (mouseX mouseY : JSNum) (obstacles : List Ent) (p : Player) :
    (movePlayer o dt input mouseX mouseY obstacles p).hp = p.hp ∧
    (movePlayer o dt input mouseX mouseY obstacles p).maxHp = p.maxHp ∧
    (movePlayer o dt input mouseX mouseY obstacles p).damage = p.damage ∧
    (movePlayer o dt input mouseX mouseY obstacles p).fireRate = p.fireRate ∧
    (movePlayer o dt input mouseX mouseY obstacles p).lastFired = p.lastFired := by
  obtain ⟨aim, cd, it, dtm, dvx, dvy, inv, xx, yy, h⟩ :=
    movePlayer_frame o dt input mouseX mouseY obstacles p
  rw [h]
  exact ⟨rfl, rfl, rfl, rfl, rfl⟩

theorem dashDisplacement_invuln (o : Oracle) (dt : JSNum) (input : Input)
    (p : Player) :
    (dashDisplacement o dt input p).1.invulnerabilityTimer =
      p.invulnerabilityTimer := by
  unfold dashDisplacement
  dsimp only
  split
  · split <;> rfl
  · split <;> rfl

theorem movePlayer_invuln (o : Oracle) (dt : JSNum) (input : Input)
    (mouseX mouseY : JSNum) (obstacles : List Ent) (p : Player) :
    (movePlayer o dt input mouseX mouseY obstacles p).invulnerabilityTimer =
      if jgt p.invulnerabilityTimer 0 then jsub p.invulnerabilityTimer dt
      else p.invulnerabilityTimer := by
  unfold movePlayer
  dsimp only
  rw [dashDisplacement_invuln, aimCooldowns_invuln]

/-- The dash-state invariant: `isInvulnerable` is set exactly while the
dash timer is a positive (finite) number. -/
def Player.dashOk (p : Player) : Prop :=
  ∃ τ : ℚ, p.dashTimer = num τ ∧ (p.isInvulnerable = true ↔ 0 < τ)

theorem aimCooldowns_dashFields (o : Oracle) (dt mouseX mouseY : JSNum)
    (p : Player) :
    (aimCooldowns o dt mouseX mouseY p).dashTimer = p.dashTimer ∧
    (aimCooldowns o dt mouseX mouseY p).isInvulnerable = p.isInvulnerable ∧
    (aimCooldowns o dt mouseX mouseY p).dashVx = p.dashVx ∧
    (aimCooldowns o dt mouseX mouseY p).dashVy = p.dashVy ∧
    (aimCooldowns o dt mouseX mouseY p).hp = p.hp := by
  obtain ⟨a, c, i, h⟩ := aimCooldowns_frame o dt mouseX mouseY p
  rw [h]
  exact ⟨rfl, rfl, rfl, rfl, rfl⟩

theorem dashDisplacement_dashOk (o : Oracle) (dt : JSNum) (input : Input)
    (p : Player) (d : ℚ) (hdt : dt = num d) (h : p.dashOk) :
    (dashDisplacement o dt input p).1.dashOk := by
  obtain ⟨τ, hτ, hiff⟩ := h
  unfold dashDisplacement
  dsimp only
  simp only [hτ, hdt, jgt_num, jsub_num, jle_num, jsnum_zero]
  by_cases h0 : 0 < τ
  · rw [if_pos (by simpa using h0)]
    by_cases h1 : τ - d ≤ 0
    · rw [if_pos (by simpa using h1)]
      exact ⟨0, rfl, by simp⟩
    · rw [if_neg (by simpa using h1)]
      exact ⟨τ - d, rfl, by constructor <;> intro <;> [linarith; exact hiff.mpr h0]⟩
  · rw [if_neg (by simpa using h0)]
    split
    · exact ⟨PLAYER_DASH_DURATION, rfl, by constructor <;> intro <;>
        [norm_num [PLAYER_DASH_DURATION]; rfl]⟩
    · exact ⟨τ, hτ, hiff⟩

theorem dashDisplacement_active (o : Oracle) (dt : JSNum) (input : Input)
    (p : Player) (τ d : ℚ) (hτ : p.dashTimer = num τ) (hdt : dt = num d)
    (h0 : 0 < τ) (hlt : d < τ) :
    (dashDisplacement o dt input p).1 = { p with dashTimer := num (τ - d) } := by
  unfold dashDisplacement
  dsimp only
  simp only [hτ, hdt, jgt_num, jsub_num, jle_num, jsnum_zero]
  rw [if_pos (by simpa using h0)]
  rw [if_neg (by simp only [decide_eq_true_eq]; intro hc; linarith)]

theorem movePlayer_dashOk (o : Oracle) (dt : JSNum) (input : Input)
    (mouseX mouseY : JSNum) (obstacles : List Ent) (p : Player) (d : ℚ)
    (hdt : dt = num d) (h : p.dashOk) :
    (movePlayer o dt input mouseX mouseY obstacles p).dashOk := by
  have hac := aimCooldowns_dashFields o dt mouseX mouseY p
  have h2 : (aimCooldowns o dt mouseX mouseY p).dashOk := by
    obtain ⟨τ, hτ, hiff⟩ := h
    exact ⟨τ, by rw [hac.1, hτ], by rw [hac.2.1]; exact hiff⟩
  obtain ⟨τ, hτ, hiff⟩ := dashDisplacement_dashOk o dt input _ d hdt h2
  exact ⟨τ, hτ, hiff⟩

theorem movePlayer_dashActive (o : Oracle) (dt : JSNum) (input : Input)
    (mouseX mouseY : JSNum) (obstacles : List Ent) (p : Player) (τ d : ℚ)
    (hτ : p.dashTimer = num τ) (hdt : dt = num d)
    (h0 : 0 < τ) (hlt : d < τ) :
    (movePlayer o dt input mouseX mouseY obstacles p).dashTimer = num (τ - d) ∧
    (movePlayer o dt input mouseX mouseY obstacles p).isInvulnerable =
      p.isInvulnerable ∧
    (movePlayer o dt input mouseX mouseY obstacles p).dashVx = p.dashVx ∧
    (movePlayer o dt input mouseX mouseY obstacles p).dashVy = p.dashVy := by
  have hac := aimCooldowns_dashFields o dt mouseX mouseY p
  have hd := dashDisplacement_active o dt input (aimCooldowns o dt mouseX mouseY p)
    τ d (by rw [hac.1, hτ]) hdt h0 hlt
  unfold movePlayer
  dsimp only
  rw [hd]
  exact ⟨rfl, hac.2.1, hac.2.2.1, hac.2.2.2.1⟩

theorem enemyAI_enemy (o : Oracle) (dt : JSNum) (e : Enemy) (p : Player)
    (bullets : List Bullet) (rk : ℕ) :
    ∃ lf, (enemyAI o dt e p bullets rk).2.1 = { e with lastFired := lf } := by
  unfold enemyAI
  dsimp only
  split
  · split
    · exact ⟨e.lastFired, rfl⟩
    · exact ⟨e.lastFired, rfl⟩
  · split
    · exact ⟨e.lastFired, rfl⟩
    · exact ⟨e.lastFired, rfl⟩
  · split
    · split
      · exact ⟨some (num 0), rfl⟩
      · exact ⟨_, rfl⟩
    · exact ⟨e.lastFired, rfl⟩

theorem enemyAI_bullets (o : Oracle) (dt : JSNum) (e : Enemy) (p : Player)
    (bullets : List Bullet) (rk : ℕ) :
    ∃ tl, (enemyAI o dt e p bullets rk).2.2.1 = bullets ++ tl ∧
      ∀ b ∈ tl, b.isEnemy = true ∧ b.damage = e.damage := by
  unfold enemyAI
  dsimp only
  split
  · split
    · exact ⟨[], by simp, by simp⟩
    · exact ⟨[], by simp, by simp⟩
  · split
    · exact ⟨[], by simp, by simp⟩
    · exact ⟨[], by simp, by simp⟩
  · split
    · split
      · refine ⟨[(fireEnemyBullet o p e rk).1], rfl, ?_⟩
        intro b hb
        rw [List.mem_singleton] at hb
        subst hb
        exact ⟨rfl, rfl⟩
      · exact ⟨[], by simp, by simp⟩
    · exact ⟨[], by simp, by simp⟩

theorem hitTimerDecay_frame (dt : JSNum) (e : Enemy) :
    ∃ ht, hitTimerDecay dt e = { e with hitTimer := ht } := by
  unfold hitTimerDecay
  split
  · exact ⟨_, rfl⟩
  · exact ⟨e.hitTimer, rfl⟩

theorem enemyMove_bullets (o : Oracle) (dt : JSNum) (obstacles : List Ent)
    (enemies : List Enemy) (i : ℕ) (e : Enemy) (p : Player)
    (bullets : List Bullet) (rk : ℕ) :
    ∃ tl, (enemyMove o dt obstacles enemies i e p bullets rk).2.1 = bullets ++ tl ∧
      ∀ b ∈ tl, b.isEnemy = true ∧ b.damage = e.damage := by
  obtain ⟨tl, htl, hbt⟩ := enemyAI_bullets o dt e p bullets rk
  rcases hAI : enemyAI o dt e p bullets rk with ⟨mv, e2, bl2, rk2⟩
  rw [hAI] at htl
  unfold enemyMove
  rw [hAI]
  exact ⟨tl, htl, hbt⟩

theorem enemyMove_stats (o : Oracle) (dt : JSNum) (obstacles : List Ent)
    (enemies : List Enemy) (i : ℕ) (e : Enemy) (p : Player)
    (bullets : List Bullet) (rk : ℕ) :
    (enemyMove o dt obstacles enemies i e p bullets rk).1.hp = e.hp ∧
    (enemyMove o dt obstacles enemies i e p bullets rk).1.maxHp = e.maxHp ∧
    (enemyMove o dt obstacles enemies i e p bullets rk).1.damage = e.damage ∧
    (enemyMove o dt obstacles enemies i e p bullets rk).1.markedForDeletion =
      e.markedForDeletion := by
  obtain ⟨lf, hlf⟩ := enemyAI_enemy o dt e p bullets rk
  rcases hAI : enemyAI o dt e p bullets rk with ⟨mv, e2, bl2, rk2⟩
  rw [hAI] at hlf
  dsimp only at hlf
  unfold enemyMove
  rw [hAI]
  dsimp only
  subst hlf
  unfold hitTimerDecay
  split <;> exact ⟨rfl, rfl, rfl, rfl⟩

theorem enemyStep_player_frame (o : Oracle) (dt : JSNum) (obs : List Ent)
    (es : List Enemy) (p : Player) (bs : List Bullet) (rk i : ℕ) :
    ∃ h t, (enemyStep o dt obs es p bs rk i).2.1 =
      { p with hp := h, invulnerabilityTimer := t } := by
  unfold enemyStep
  split
  · exact ⟨p.hp, p.invulnerabilityTimer, rfl⟩
  · exact contactDamage_frame p _

theorem enemyStep_player_blocked (o : Oracle) (dt : JSNum) (obs : List Ent)
    (es : List Enemy) (p : Player) (bs : List Bullet) (rk i : ℕ)
    (hb : p.isInvulnerable = true ∨ jle p.invulnerabilityTimer 0 = false) :
    (enemyStep o dt obs es p bs rk i).2.1 = p := by
  unfold enemyStep
  split
  · rfl
  · exact contactDamage_blocked p _ hb

theorem enemyStep_hpOk (o : Oracle) (dt : JSNum) (obs : List Ent)
    (es : List Enemy) (p : Player) (bs : List Bullet) (rk i : ℕ)
    (hd : ∀ e ∈ es, e.dmgOk) (hp : p.hpOk) :
    (enemyStep o dt obs es p bs rk i).2.1.hpOk := by
  unfold enemyStep
  split
  · exact hp
  · rename_i e heq
    exact contactDamage_hpOk p e (hd e (List.get?_mem heq)) hp

theorem enemyStep_enemies (o : Oracle) (dt : JSNum) (obs : List Ent)
    (es : List Enemy) (p : Player) (bs : List Bullet) (rk i : ℕ) :
    ∀ e' ∈ (enemyStep o dt obs es p bs rk i).1, ∃ e ∈ es,
      e'.hp = e.hp ∧ e'.maxHp = e.maxHp ∧ e'.damage = e.damage ∧
      e'.markedForDeletion = e.markedForDeletion := by
  unfold enemyStep
  split
  · intro e' he'
    exact ⟨e', he', rfl, rfl, rfl, rfl⟩
  · rename_i e heq
    intro e' he'
    dsimp only at he'
    rcases List.mem_or_eq_of_mem_set he' with h | h
    · exact ⟨e', h, rfl, rfl, rfl, rfl⟩
    · subst h
      obtain ⟨h1, h2, h3, h4⟩ :=
        enemyMove_stats o dt obs es i e (contactDamage p e) bs rk
      exact ⟨e, List.get?_mem heq, h1, h2, h3, h4⟩

theorem enemyStep_bullets (o : Oracle) (dt : JSNum) (obs : List Ent)
    (es : List Enemy) (p : Player) (bs : List Bullet) (rk i : ℕ) :
    ∃ tl, (enemyStep o dt obs es p bs rk i).2.2.1 = bs ++ tl ∧
      ∀ b ∈ tl, b.isEnemy = true ∧ ∃ e ∈ es, b.damage = e.damage := by
  unfold enemyStep
  split
  · exact ⟨[], by simp, by simp⟩
  · rename_i e heq
    obtain ⟨tl, htl, hbt⟩ :=
      enemyMove_bullets o dt obs es i e (contactDamage p e) bs rk
    exact ⟨tl, htl, fun b hb =>
      ⟨(hbt b hb).1, e, List.get?_mem heq, (hbt b hb).2⟩⟩

theorem enemyLoop_player_frame (o : Oracle) (dt : JSNum) (obs : List Ent) :
    ∀ (fuel i : ℕ) (es : List Enemy) (p : Player) (bs : List Bullet) (rk : ℕ),
    ∃ h t, (enemyLoop o dt obs i fuel es p bs rk).2.1 =
      { p with hp := h, invulnerabilityTimer := t }
  | 0, i, es, p, bs, rk => ⟨p.hp, p.invulnerabilityTimer, rfl⟩
  | fuel + 1, i, es, p, bs, rk => by
    obtain ⟨h0, t0, e0⟩ := enemyStep_player_frame o dt obs es p bs rk i
    obtain ⟨h1, t1, e1⟩ := enemyLoop_player_frame o dt obs fuel (i + 1)
      (enemyStep o dt obs es p bs rk i).1
      (enemyStep o dt obs es p bs rk i).2.1
      (enemyStep o dt obs es p bs rk i).2.2.1
      (enemyStep o dt obs es p bs rk i).2.2.2
    refine ⟨h1, t1, ?_⟩
    show (enemyLoop o dt obs (i + 1) fuel _ _ _ _).2.1 = _
    rw [e1, e0]

theorem enemyLoop_player_blocked (o : Oracle) (dt : JSNum) (obs : List Ent) :
    ∀ (fuel i : ℕ) (es : List Enemy) (p : Player) (bs : List Bullet) (rk : ℕ),
    (p.isInvulnerable = true ∨ jle p.invulnerabilityTimer 0 = false) →
    (enemyLoop o dt obs i fuel es p bs rk).2.1 = p
  | 0, i, es, p, bs, rk, _ => rfl
  | fuel + 1, i, es, p, bs, rk, hb => by
    have hstep := enemyStep_player_blocked o dt obs es p bs rk i hb
    have ih := enemyLoop_player_blocked o dt obs fuel (i + 1)
      (enemyStep o dt obs es p bs rk i).1
      (enemyStep o dt obs es p bs rk i).2.1
      (enemyStep o dt obs es p bs rk i).2.2.1
      (enemyStep o dt obs es p bs rk i).2.2.2
      (by rw [hstep]; exact hb)
    show (enemyLoop o dt obs (i + 1) fuel _ _ _ _).2.1 = p
    rw [ih, hstep]

theorem enemyLoop_enemies (o : Oracle) (dt : JSNum) (obs : List Ent) :
    ∀ (fuel i : ℕ) (es : List Enemy) (p : Player) (bs : List Bullet) (rk : ℕ),
    ∀ e' ∈ (enemyLoop o dt obs i fuel es p bs rk).1, ∃ e ∈ es,
      e'.hp = e.hp ∧ e'.maxHp = e.maxHp ∧ e'.damage = e.damage ∧
      e'.markedForDeletion = e.markedForDeletion
  | 0, i, es, p, bs, rk, e', he' => ⟨e', he', rfl, rfl, rfl, rfl⟩
  | fuel + 1, i, es, p, bs, rk, e', he' => by
    have he'2 : e' ∈ (enemyLoop o dt obs (i + 1) fuel
        (enemyStep o dt obs es p bs rk i).1
        (enemyStep o dt obs es p bs rk i).2.1
        (enemyStep o dt obs es p bs rk i).2.2.1
        (enemyStep o dt obs es p bs rk i).2.2.2).1 := he'
    obtain ⟨e1, he1, a1, a2, a3, a4⟩ := enemyLoop_enemies o dt obs fuel (i + 1)
      _ _ _ _ e' he'2
    obtain ⟨e0, he0, b1, b2, b3, b4⟩ :=
      enemyStep_enemies o dt obs es p bs rk i e1 he1
    exact ⟨e0, he0, a1.trans b1, a2.trans b2, a3.trans b3, a4.trans b4⟩

theorem enemyLoop_inv (o : Oracle) (dt : JSNum) (obs : List Ent) :
    ∀ (fuel i : ℕ) (es : List Enemy) (p : Player) (bs : List Bullet) (rk : ℕ),
    (∀ e ∈ es, e.dmgOk) → p.hpOk → (∀ b ∈ bs, b.dmgOk) →
    (enemyLoop o dt obs i fuel es p bs rk).2.1.hpOk ∧
    (∀ b ∈ (enemyLoop o dt obs i fuel es p bs rk).2.2.1, b.dmgOk)
  | 0, i, es, p, bs, rk, _, hp, hb => ⟨hp, hb⟩
  | fuel + 1, i, es, p, bs, rk, hd, hp, hb => by
    have hd2 : ∀ e ∈ (enemyStep o dt obs es p bs rk i).1, e.dmgOk := by
      intro e' he'
      obtain ⟨e, he, _, _, h3, _⟩ := enemyStep_enemies o dt obs es p bs rk i e' he'
      obtain ⟨d, hd1, hd2⟩ := hd e he
      exact ⟨d, h3.trans hd1, hd2⟩
    have hp2 := enemyStep_hpOk o dt obs es p bs rk i hd hp
    have hb2 : ∀ b ∈ (enemyStep o dt obs es p bs rk i).2.2.1, b.dmgOk := by
      obtain ⟨tl, htl, hbt⟩ := enemyStep_bullets o dt obs es p bs rk i
      rw [htl]
      intro b hb'
      rcases List.mem_append.mp hb' with h | h
      · exact hb b h
      · obtain ⟨_, e, he, hdm⟩ := hbt b h
        obtain ⟨d, hd1, hd2⟩ := hd e he
        exact ⟨d, hdm.trans hd1, hd2⟩
    exact enemyLoop_inv o dt obs fuel (i + 1) _ _ _ _ hd2 hp2 hb2

/-- The enemy is live: finite positive hp and not marked for deletion. -/
def Enemy.liveOk (e : Enemy) : Prop :=
  ∃ h : ℚ, e.hp = num h ∧ 0 < h ∧ e.markedForDeletion = false

/-- The deletion-mark discipline: the mark is set exactly when the
(finite) hp has dropped to `≤ 0`. -/
def Enemy.mdOk (e : Enemy) : Prop :=
  ∃ h : ℚ, e.hp = num h ∧ (e.markedForDeletion = true ↔ h ≤ 0)

theorem Enemy.liveOk.mdOk {e : Enemy} (h : e.liveOk) : e.mdOk := by
  obtain ⟨q, h1, h2, h3⟩ := h
  exact ⟨q, h1, by rw [h3]; constructor <;> intro hx <;> [exact absurd hx (by simp); linarith]⟩

theorem hitFirstEnemy_mdOk (b : Bullet) (hb : b.dmgOk) (es : List Enemy)
    (hall : ∀ e ∈ es, e.mdOk) :
    ∀ e' ∈ (hitFirstEnemy b es).1, e'.mdOk := by
  induction es with
  | nil => simp [hitFirstEnemy]
  | cons e es ih =>
    intro e' he'
    obtain ⟨d, hd1, hd2⟩ := hb
    unfold hitFirstEnemy at he'
    split at he'
    · obtain ⟨h, hh1, hh2⟩ := hall e (List.mem_cons_self e es)
      rw [List.mem_cons] at he'
      rcases he' with h' | h'
      · subst h'
        dsimp only
        rw [hh1, hd1, jsub_num]
        by_cases hle : h - d ≤ 0
        · rw [if_pos (by simp [jle_num, jsnum_zero, hle])]
          exact ⟨h - d, rfl, by simpa using hle⟩
        · rw [if_neg (by simp [jle_num, jsnum_zero, hle])]
          refine ⟨h - d, rfl, ?_⟩
          rw [hh2]
          constructor <;> intro hx <;> [linarith; exact absurd hx hle]
      · exact hall e' (List.mem_cons_of_mem e h')
    · dsimp only at he'
      rw [List.mem_cons] at he'
      rcases he' with h' | h'
      · subst h'
        exact hall e' (List.mem_cons_self e' es)
      · exact ih (fun x hx => hall x (List.mem_cons_of_mem e hx)) e' h'

theorem hitFirstEnemy_stats (b : Bullet) (es : List Enemy) :
    ∀ e' ∈ (hitFirstEnemy b es).1, ∃ e ∈ es,
      e'.maxHp = e.maxHp ∧ e'.damage = e.damage := by
  induction es with
  | nil => simp [hitFirstEnemy]
  | cons e es ih =>
    intro e' he'
    unfold hitFirstEnemy at he'
    split at he'
    · rw [List.mem_cons] at he'
      rcases he' with h' | h'
      · subst h'
        split
        · exact ⟨e, List.mem_cons_self e es, rfl, rfl⟩
        · exact ⟨e, List.mem_cons_self e es, rfl, rfl⟩
      · exact ⟨e', List.mem_cons_of_mem e h', rfl, rfl⟩
    · dsimp only at he'
      rw [List.mem_cons] at he'
      rcases he' with h' | h'
      · subst h'
        exact ⟨e', List.mem_cons_self e' es, rfl, rfl⟩
      · obtain ⟨e0, he0, a1, a2⟩ := ih e' h'
        exact ⟨e0, List.mem_cons_of_mem e he0, a1, a2⟩

theorem integrateBullet_fields (dt : JSNum) (obs : List Ent) (b : Bullet) :
    (integrateBullet dt obs b).damage = b.damage ∧
    (integrateBullet dt obs b).isEnemy = b.isEnemy := by
  unfold integrateBullet
  dsimp only
  split <;> split <;> exact ⟨rfl, rfl⟩

theorem integrateBullet_survivor (dt : JSNum) (obs : List Ent) (b : Bullet)
    (hm : (integrateBullet dt obs b).markedForDeletion = false) :
    outOfArena (integrateBullet dt obs b) = false ∧
    ∀ ob ∈ obs, checkCollision ((integrateBullet dt obs b)).toEnt ob = false := by
  unfold integrateBullet at hm ⊢
  dsimp only at hm ⊢
  split at hm
  · exact absurd hm (by simp)
  · rename_i hwall
    split at hm
    · exact absurd hm (by simp)
    · rename_i hobs
      simp only [if_neg hwall] at hobs ⊢
      simp only [if_neg hobs]
      refine ⟨by rwa [Bool.not_eq_true] at hwall, ?_⟩
      intro ob hob
      have hx := List.any_eq_false.mp (by rwa [Bool.not_eq_true] at hobs) ob hob
      simpa using hx

theorem bulletStep_player_frame (dt : JSNum) (obs : List Ent) (b : Bullet)
    (p : Player) (es : List Enemy) :
    ∃ h t, (bulletStep dt obs b p es).2.1 =
      { p with hp := h, invulnerabilityTimer := t } := by
  unfold bulletStep
  dsimp only
  repeat' split
  all_goals first
    | exact ⟨p.hp, p.invulnerabilityTimer, rfl⟩
    | exact ⟨_, _, rfl⟩

theorem bulletStep_player_blocked (dt : JSNum) (obs : List Ent) (b : Bullet)
    (p : Player) (es : List Enemy)
    (hb : p.isInvulnerable = true ∨ jle p.invulnerabilityTimer 0 = false) :
    (bulletStep dt obs b p es).2.1 = p := by
  unfold bulletStep
  dsimp only
  repeat' split
  all_goals first
    | rfl
    | (exfalso; rcases hb with hb | hb <;> simp_all)

theorem bulletStep_hpOk (dt : JSNum) (obs : List Ent) (b : Bullet)
    (p : Player) (es : List Enemy) (hbd : b.dmgOk) (hp : p.hpOk) :
    (bulletStep dt obs b p es).2.1.hpOk := by
  obtain ⟨d, hd1, hd2⟩ := hbd
  obtain ⟨h, m, h1, h2, h3, h4⟩ := hp
  have hd1' : (integrateBullet dt obs b).damage = num d := by
    rw [(integrateBullet_fields dt obs b).1, hd1]
  unfold bulletStep
  dsimp only
  repeat' split
  all_goals try exact ⟨h, m, h1, h2, h3, h4⟩
  · exact ⟨0, m, rfl, h2, le_refl 0, le_trans h3 h4⟩
  · rename_i hcl
    rw [h1, hd1', jsub_num, jsnum_zero, jle_num] at hcl
    have hgt : ¬(h - d ≤ 0) := by simpa using hcl
    exact ⟨h - d, m, by rw [h1, hd1', jsub_num], h2, by linarith, by linarith⟩

theorem bulletStep_enemies_mdOk (dt : JSNum) (obs : List Ent) (b : Bullet)
    (p : Player) (es : List Enemy) (hbd : b.dmgOk)
    (hall : ∀ e ∈ es, e.mdOk) :
    ∀ e' ∈ (bulletStep dt obs b p es).2.2, e'.mdOk := by
  obtain ⟨d, h1, h2⟩ := hbd
  unfold bulletStep
  dsimp only
  repeat' split
  all_goals first
    | exact hall
    | exact hitFirstEnemy_mdOk _
        ⟨d, by rw [(integrateBullet_fields dt obs b).1]; exact h1, h2⟩ es hall

theorem bulletStep_enemies_stats (dt : JSNum) (obs : List Ent) (b : Bullet)
    (p : Player) (es : List Enemy) :
    ∀ e' ∈ (bulletStep dt obs b p es).2.2, ∃ e ∈ es,
      e'.maxHp = e.maxHp ∧ e'.damage = e.damage := by
  unfold bulletStep
  dsimp only
  repeat' split
  all_goals first
    | exact fun e' he' => ⟨e', he', rfl, rfl⟩
    | exact hitFirstEnemy_stats _ es

theorem bulletStep_bullet (dt : JSNum) (obs : List Ent) (b : Bullet)
    (p : Player) (es : List Enemy) :
    ∃ mk, (bulletStep dt obs b p es).1 =
      { integrateBullet dt obs b with markedForDeletion := mk } ∧
      (mk = false → (integrateBullet dt obs b).markedForDeletion = false) := by
  unfold bulletStep
  dsimp only
  repeat' split
  all_goals first
    | exact ⟨true, rfl, by simp⟩
    | exact ⟨(integrateBullet dt obs b).markedForDeletion, rfl, fun h => h⟩

theorem bulletPass_player_frame (dt : JSNum) (obs : List Ent) :
    ∀ (bs : List Bullet) (p : Player) (es : List Enemy),
    ∃ h t, (bulletPass dt obs bs p es).2.1 =
      { p with hp := h, invulnerabilityTimer := t }
  | [], p, es => ⟨p.hp, p.invulnerabilityTimer, rfl⟩
  | b :: rest, p, es => by
    obtain ⟨h0, t0, e0⟩ := bulletPass_player_frame dt obs rest p es
    obtain ⟨h1, t1, e1⟩ := bulletStep_player_frame dt obs b
      (bulletPass dt obs rest p es).2.1 (bulletPass dt obs rest p es).2.2
    refine ⟨h1, t1, ?_⟩
    simp only [bulletPass]
    rw [e1, e0]

theorem bulletPass_player_blocked (dt : JSNum) (obs : List Ent) :
    ∀ (bs : List Bullet) (p : Player) (es : List Enemy),
    (p.isInvulnerable = true ∨ jle p.invulnerabilityTimer 0 = false) →
    (bulletPass dt obs bs p es).2.1 = p
  | [], p, es, _ => rfl
  | b :: rest, p, es, hb => by
    have ih := bulletPass_player_blocked dt obs rest p es hb
    have hs := bulletStep_player_blocked dt obs b
      (bulletPass dt obs rest p es).2.1 (bulletPass dt obs rest p es).2.2
      (by rw [ih]; exact hb)
    simp only [bulletPass]
    rw [hs, ih]

theorem bulletPass_hpOk (dt : JSNum) (obs : List Ent) :
    ∀ (bs : List Bullet) (p : Player) (es : List Enemy),
    (∀ b ∈ bs, b.dmgOk) → p.hpOk →
    (bulletPass dt obs bs p es).2.1.hpOk
  | [], p, es, _, hp => hp
  | b :: rest, p, es, hd, hp => by
    have ih := bulletPass_hpOk dt obs rest p es
      (fun x hx => hd x (List.mem_cons_of_mem b hx)) hp
    have hs := bulletStep_hpOk dt obs b
      (bulletPass dt obs rest p es).2.1 (bulletPass dt obs rest p es).2.2
      (hd b (List.mem_cons_self b rest)) ih
    exact hs

theorem bulletPass_enemies_mdOk (dt : JSNum) (obs : List Ent) :
    ∀ (bs : List Bullet) (p : Player) (es : List Enemy),
    (∀ b ∈ bs, b.dmgOk) → (∀ e ∈ es, e.mdOk) →
    ∀ e' ∈ (bulletPass dt obs bs p es).2.2, e'.mdOk
  | [], p, es, _, hall => hall
  | b :: rest, p, es, hd, hall => by
    have ih := bulletPass_enemies_mdOk dt obs rest p es
      (fun x hx => hd x (List.mem_cons_of_mem b hx)) hall
    exact bulletStep_enemies_mdOk dt obs b
      (bulletPass dt obs rest p es).2.1 (bulletPass dt obs rest p es).2.2
      (hd b (List.mem_cons_self b rest)) ih

theorem bulletPass_enemies_stats (dt : JSNum) (obs : List Ent) :
    ∀ (bs : List Bullet) (p : Player) (es : List Enemy),
    ∀ e' ∈ (bulletPass dt obs bs p es).2.2, ∃ e ∈ es,
      e'.maxHp = e.maxHp ∧ e'.damage = e.damage
  | [], p, es, e', he' => ⟨e', he', rfl, rfl⟩
  | b :: rest, p, es, e', he' => by
    obtain ⟨e1, he1, a1, a2⟩ := bulletStep_enemies_stats dt obs b
      (bulletPass dt obs rest p es).2.1 (bulletPass dt obs rest p es).2.2 e' he'
    obtain ⟨e0, he0, b1, b2⟩ := bulletPass_enemies_stats dt obs rest p es e1 he1
    exact ⟨e0, he0, a1.trans b1, a2.trans b2⟩

theorem bulletPass_survivors (dt : JSNum) (obs : List Ent) :
    ∀ (bs : List Bullet) (p : Player) (es : List Enemy),
    ∀ b' ∈ (bulletPass dt obs bs p es).1,
      outOfArena b' = false ∧
      ∀ ob ∈ obs, checkCollision b'.toEnt ob = false
  | [], p, es, b', hb' => absurd hb' (by simp [bulletPass])
  | b :: rest, p, es, b', hb' => by
    have hb'2 : b' ∈ (if (bulletStep dt obs b (bulletPass dt obs rest p es).2.1
        (bulletPass dt obs rest p es).2.2).1.markedForDeletion
        then (bulletPass dt obs rest p es).1
        else (bulletStep dt obs b (bulletPass dt obs rest p es).2.1
          (bulletPass dt obs rest p es).2.2).1 ::
            (bulletPass dt obs rest p es).1) := hb'
    split at hb'2
    · exact bulletPass_survivors dt obs rest p es b' hb'2
    · rename_i hmk
      rw [List.mem_cons] at hb'2
      rcases hb'2 with h' | h'
      · subst h'
        obtain ⟨mk, hmk1, hmk2⟩ := bulletStep_bullet dt obs b
          (bulletPass dt obs rest p es).2.1 (bulletPass dt obs rest p es).2.2
        rw [hmk1] at hmk ⊢
        have hmkf : mk = false := by simpa using hmk
        subst hmkf
        obtain ⟨hw, hob⟩ := integrateBullet_survivor dt obs b (hmk2 rfl)
        exact ⟨hw, hob⟩
      · exact bulletPass_survivors dt obs rest p es b' h'

theorem firePhase_spec (o : Oracle) (dt : JSNum) (input : Input)
    (p : Player) (bullets : List Bullet) (rk : ℕ) :
    ∃ tl, (firePhase o dt input p bullets rk).2.1 = bullets ++ tl ∧
      (∀ b ∈ tl, b.isEnemy = false ∧ b.damage = p.damage) ∧
      ∃ lf, (firePhase o dt input p bullets rk).1 = { p with lastFired := lf } := by
  unfold firePhase
  dsimp only
  split
  · split
    · refine ⟨[(fireBullet o { p with lastFired := jadd p.lastFired dt } rk).1],
        rfl, ?_, num 0, rfl⟩
      intro b hb
      rw [List.mem_singleton] at hb
      subst hb
      exact ⟨rfl, rfl⟩
    · exact ⟨[], by simp, by simp, jadd p.lastFired dt, rfl⟩
  · exact ⟨[], by simp, by simp, jadd p.lastFired dt, rfl⟩

theorem firePhase_lastFired (o : Oracle) (dt : JSNum) (input : Input)
    (p : Player) (bullets : List Bullet) (rk : ℕ) :
    (firePhase o dt input p bullets rk).1.lastFired =
      if input.mouseLeft && jge (jadd p.lastFired dt) (jdiv 1 p.fireRate)
      then num 0 else jadd p.lastFired dt := by
  unfold firePhase
  dsimp only
  cases hm : input.mouseLeft
  · simp [hm]
  · simp only [hm, Bool.true_and, eq_self_iff_true, if_true]
    split
    · rfl
    · rfl

theorem spawnOne_spec (o : Oracle) (wave rk : ℕ) :
    (spawnOne o wave rk).1.liveOk ∧ (spawnOne o wave rk).1.dmgOk := by
  unfold spawnOne
  dsimp only
  by_cases h3 : wave ≥ 3
  · simp only [if_pos h3]
    by_cases r1 : o.rand rk < (1/5 : ℚ)
    · simp only [if_pos r1]
      exact ⟨⟨_, rfl, by norm_num [ENEMY_TANK_HP], rfl⟩,
        ⟨_, rfl, by norm_num [ENEMY_TANK_DAMAGE]⟩⟩
    · simp only [if_neg r1]
      by_cases r2 : o.rand rk < (3/5 : ℚ)
      · simp only [if_pos r2]
        exact ⟨⟨_, rfl, by norm_num [ENEMY_SHOOTER_HP], rfl⟩,
          ⟨_, rfl, by norm_num [ENEMY_SHOOTER_DAMAGE]⟩⟩
      · simp only [if_neg r2]
        exact ⟨⟨_, rfl, by norm_num [ENEMY_CHASER_HP], rfl⟩,
          ⟨_, rfl, by norm_num [ENEMY_CHASER_DAMAGE]⟩⟩
  · simp only [if_neg h3]
    by_cases h2 : wave ≥ 2
    · simp only [if_pos h2]
      by_cases r1 : o.rand rk > (1/2 : ℚ)
      · simp only [if_pos r1]
        exact ⟨⟨_, rfl, by norm_num [ENEMY_SHOOTER_HP], rfl⟩,
          ⟨_, rfl, by norm_num [ENEMY_SHOOTER_DAMAGE]⟩⟩
      · simp only [if_neg r1]
        exact ⟨⟨_, rfl, by norm_num [ENEMY_CHASER_HP], rfl⟩,
          ⟨_, rfl, by norm_num [ENEMY_CHASER_DAMAGE]⟩⟩
    · simp only [if_neg h2]
      exact ⟨⟨_, rfl, by norm_num [ENEMY_CHASER_HP], rfl⟩,
        ⟨_, rfl, by norm_num [ENEMY_CHASER_DAMAGE]⟩⟩

theorem spawnList_spec (o : Oracle) (wave : ℕ) :
    ∀ (n rk : ℕ), ∀ e ∈ (spawnList o wave n rk).1, e.liveOk ∧ e.dmgOk
  | 0, rk, e, he => absurd he (by simp [spawnList])
  | n + 1, rk, e, he => by
    have he2 : e ∈ (spawnOne o wave rk).1 ::
        (spawnList o wave n (spawnOne o wave rk).2).1 := he
    rw [List.mem_cons] at he2
    rcases he2 with h | h
    · subst h
      exact spawnOne_spec o wave rk
    · exact spawnList_spec o wave n (spawnOne o wave rk).2 e h

theorem wavePhase_enemies (o : Oracle) (dt : JSNum) (enemies : List Enemy)
    (w : ℕ) (wt : JSNum) (rk : ℕ)
    (hall : ∀ e ∈ enemies, e.liveOk ∧ e.dmgOk) :
    ∀ e ∈ (wavePhase o dt enemies w wt rk).1, e.liveOk ∧ e.dmgOk := by
  unfold wavePhase
  dsimp only
  split
  · split
    · intro e he
      rcases List.mem_append.mp he with h | h
      · exact hall e h
      · exact spawnList_spec o (w + 1) _ _ e h
    · exact hall
  · exact hall

theorem wavePhase_dmgOk (o : Oracle) (dt : JSNum) (enemies : List Enemy)
    (w : ℕ) (wt : JSNum) (rk : ℕ)
    (hall : ∀ e ∈ enemies, e.dmgOk) :
    ∀ e ∈ (wavePhase o dt enemies w wt rk).1, e.dmgOk := by
  unfold wavePhase
  dsimp only
  split
  · split
    · intro e he
      rcases List.mem_append.mp he with h | h
      · exact hall e h
      · exact (spawnList_spec o (w + 1) _ _ e h).2
    · exact hall
  · exact hall

theorem update_eq (o : Oracle) (dt : JSNum) (input : Input)
    (mx my : JSNum) (g : Game) (p0 : Player)
    (hRUN : g.state = GameState.RUN) (hp0 : g.player = some p0) :
    update o dt input mx my g = { g with
      player := some (stepPipeline o dt input mx my g p0).1,
      bullets := (stepPipeline o dt input mx my g p0).2.1,
      enemies := (stepPipeline o dt input mx my g p0).2.2.1.filter
        (fun e => !e.markedForDeletion),
      currentWave := (stepPipeline o dt input mx my g p0).2.2.2.1,
      waveTimer := (stepPipeline o dt input mx my g p0).2.2.2.2.1,
      randK := (stepPipeline o dt input mx my g p0).2.2.2.2.2 } := by
  unfold update
  rw [if_neg (by rw [hRUN]; simp)]
  simp only [hp0]

theorem stepPipeline_hpOk (o : Oracle) (dt : JSNum) (input : Input)
    (mx my : JSNum) (g : Game) (p0 : Player)
    (h1 : p0.hpOk) (h2 : p0.dmgOk)
    (h3 : ∀ e ∈ g.enemies, e.dmgOk) (h4 : ∀ b ∈ g.bullets, b.dmgOk) :
    (stepPipeline o dt input mx my g p0).1.hpOk ∧
    (stepPipeline o dt input mx my g p0).1.maxHp = p0.maxHp := by
  obtain ⟨hphp, hpmax, hpdmg, hpfr, hplf⟩ :=
    movePlayer_stats o dt input mx my g.obstacles p0
  unfold stepPipeline
  dsimp only
  set w := wavePhase o dt g.enemies g.currentWave g.waveTimer g.randK with hw
  set p1 := movePlayer o dt input mx my g.obstacles p0 with hp1def
  set l := enemyLoop o dt g.obstacles 0 w.1.length w.1 p1 g.bullets w.2.2.2 with hldef
  set f := firePhase o dt input l.2.1 l.2.2.1 l.2.2.2 with hfdef
  -- player invariants entering the enemy loop
  have h1' : p1.hpOk := by
    obtain ⟨h, m, e1, e2, l1, l2⟩ := h1
    exact ⟨h, m, by rw [hp1def, hphp, e1], by rw [hp1def, hpmax, e2], l1, l2⟩
  have h3' := wavePhase_dmgOk o dt g.enemies g.currentWave g.waveTimer g.randK h3
  have hl := enemyLoop_inv o dt g.obstacles w.1.length 0 w.1 p1 g.bullets
    w.2.2.2 h3' h1' h4
  obtain ⟨lhp, ldm⟩ := hl
  obtain ⟨lh, lt, hlframe⟩ := enemyLoop_player_frame o dt g.obstacles
    w.1.length 0 w.1 p1 g.bullets w.2.2.2
  rw [← hldef] at lhp ldm hlframe
  -- fire phase
  obtain ⟨tl, hft, hfb, lf, hfp⟩ := firePhase_spec o dt input l.2.1 l.2.2.1 l.2.2.2
  rw [← hfdef] at hft hfp
  have hfhp : f.1.hpOk := by
    obtain ⟨h, m, e1, e2, l1, l2⟩ := lhp
    rw [hfp]
    exact ⟨h, m, e1, e2, l1, l2⟩
  have hfd : ∀ b ∈ f.2.1, b.dmgOk := by
    rw [hft]
    intro b hb
    rcases List.mem_append.mp hb with h | h
    · exact ldm b h
    · obtain ⟨d, hd1, hd2⟩ := h2
      have hdl : l.2.1.damage = num d := by
        rw [hlframe]
        show p1.damage = num d
        rw [hp1def, hpdmg, hd1]
      exact ⟨d, by rw [(hfb b h).2, hdl], hd2⟩
  -- bullet pass
  have hbp := bulletPass_hpOk dt g.obstacles f.2.1 f.1 l.1 hfd hfhp
  obtain ⟨bh, bt, hbpf⟩ := bulletPass_player_frame dt g.obstacles f.2.1 f.1 l.1
  refine ⟨hbp, ?_⟩
  rw [hbpf]
  show f.1.maxHp = p0.maxHp
  rw [hfp]
  show l.2.1.maxHp = p0.maxHp
  rw [hlframe]
  show p1.maxHp = p0.maxHp
  rw [hp1def, hpmax]

/-- A RUN-state game with the reset player, one chaser overlapping it and
one player bullet at the center. -/
def gC1 : Game :=
  { gBase with enemies := [chaserOnPlayer], bullets := [bulletCenter] }

/-- C1: for every update call from a state whose player and live entities
have well-formed (finite, nonnegative) damage values and whose player hp
lies in `[0, maxHp]`, the player's hp after `update` is again a finite
number in `[0, maxHp]`, and `maxHp` is unchanged — damage application
clamps at 0 and nothing in `update` raises hp. -/
theorem player_hp_within_bounds (o : Oracle) (dt : JSNum) (input : Input)
    (mouseX mouseY : JSNum) (g : Game) (p0 : Player)
    (hp0 : g.player = some p0) (h1 : p0.hpOk) (h2 : p0.dmgOk)
    (h3 : ∀ e ∈ g.enemies, e.dmgOk) (h4 : ∀ b ∈ g.bullets, b.dmgOk) :
    ∃ p', (update o dt input mouseX mouseY g).player = some p' ∧
      p'.maxHp = p0.maxHp ∧
      ∃ h m : ℚ, p'.hp = num h ∧ p'.maxHp = num m ∧ 0 ≤ h ∧ h ≤ m := by
  by_cases hs : g.state = GameState.RUN
  · rw [update_eq o dt input mouseX mouseY g p0 hs hp0]
    obtain ⟨⟨h, m, e1, e2, l1, l2⟩, hmax⟩ :=
      stepPipeline_hpOk o dt input mouseX mouseY g p0 h1 h2 h3 h4
    exact ⟨_, rfl, hmax, h, m, e1, e2, l1, l2⟩
  · have hid : update o dt input mouseX mouseY g = g := by
      unfold update
      rw [if_pos hs]
    rw [hid, hp0]
    obtain ⟨h, m, e1, e2, l1, l2⟩ := h1
    exact ⟨p0, rfl, rfl, h, m, e1, e2, l1, l2⟩

/-- Witness for C1 at a concrete reachable state: the reset player, one
chaser overlapping it, one player bullet, a 0.1 s tick. -/
theorem player_hp_within_bounds_witness :
    ∃ p', (update oracleK (num (1/10)) inputNone (num 640) (num 360)
        gC1).player = some p' ∧
      p'.maxHp = resetPlayer.maxHp ∧
      ∃ h m : ℚ, p'.hp = num h ∧ p'.maxHp = num m ∧ 0 ≤ h ∧ h ≤ m :=
  player_hp_within_bounds oracleK (num (1/10)) inputNone (num 640) (num 360)
    gC1 resetPlayer rfl
    ⟨PLAYER_MAX_HP, PLAYER_MAX_HP, rfl, rfl, by norm_num [PLAYER_MAX_HP],
      le_refl _⟩
    ⟨10, rfl, by norm_num⟩
    (by intro e he
        rw [show gC1.enemies = [chaserOnPlayer] from rfl,
          List.mem_singleton] at he
        subst he
        exact ⟨ENEMY_CHASER_DAMAGE, rfl, by norm_num [ENEMY_CHASER_DAMAGE]⟩)
    (by intro b hb
        rw [show gC1.bullets = [bulletCenter] from rfl,
          List.mem_singleton] at hb
        subst hb
        exact ⟨10, rfl, by norm_num⟩)

/-- A RUN-state game with the reset player and one stationary chaser
sitting exactly on the player. -/
def gC3 : Game := { gBase with enemies := [chaserOnPlayer] }

/-- C3: (i) in any update whose time step `d` is smaller than the
remaining post-hit grace `t` (so the timer is still positive when the
damage checks run), neither enemy contact nor enemy bullets change the
player's hp; (ii) concretely, a stationary enemy dealing 10 contact
damage that overlaps the player for two consecutive 0.1 s ticks reduces
hp by exactly 10 (to 90), not 20. -/
theorem postHit_grace_blocks_damage :
    (∀ (o : Oracle) (dt : JSNum) (input : Input) (mouseX mouseY : JSNum)
       (g : Game) (p0 : Player) (t d : ℚ),
       g.player = some p0 → p0.invulnerabilityTimer = num t → 0 < t →
       dt = num d → d < t →
       ∃ p', (update o dt input mouseX mouseY g).player = some p' ∧
         p'.hp = p0.hp) ∧
    ((update oracleK (num (1/10)) inputNone (num 640) (num 360)
        gC3).player.map Player.hp = some (num 90) ∧
      (update oracleK (num (1/10)) inputNone (num 640) (num 360)
        (update oracleK (num (1/10)) inputNone (num 640) (num 360)
          gC3)).player.map Player.hp = some (num 90)) := by
  constructor
  · intro o dt input mouseX mouseY g p0 t d hp0 hti ht hdt hlt
    by_cases hs : g.state = GameState.RUN
    · rw [update_eq o dt input mouseX mouseY g p0 hs hp0]
      refine ⟨_, rfl, ?_⟩
      unfold stepPipeline
      dsimp only
      set w := wavePhase o dt g.enemies g.currentWave g.waveTimer g.randK
      set p1 := movePlayer o dt input mouseX mouseY g.obstacles p0 with hp1def
      set l := enemyLoop o dt g.obstacles 0 w.1.length w.1 p1 g.bullets w.2.2.2
        with hldef
      set f := firePhase o dt input l.2.1 l.2.2.1 l.2.2.2 with hfdef
      obtain ⟨hphp, hpmax, hpdmg, hpfr, hplf⟩ :=
        movePlayer_stats o dt input mouseX mouseY g.obstacles p0
      have hti1 : p1.invulnerabilityTimer = num (t - d) := by
        rw [hp1def, movePlayer_invuln, hti, hdt,
          if_pos (by simp [jgt_num, jsnum_zero, ht]), jsub_num]
      have hblock1 : jle p1.invulnerabilityTimer 0 = false := by
        rw [hti1]
        simp [jle_num, jsnum_zero]
        linarith
      have hl := enemyLoop_player_blocked o dt g.obstacles w.1.length 0 w.1 p1
        g.bullets w.2.2.2 (Or.inr hblock1)
      rw [← hldef] at hl
      obtain ⟨tl, hft, hfb, lf, hfp⟩ :=
        firePhase_spec o dt input l.2.1 l.2.2.1 l.2.2.2
      rw [← hfdef] at hfp
      have hblock2 : jle ((f.1).invulnerabilityTimer) 0 = false := by
        rw [hfp]
        show jle (l.2.1.invulnerabilityTimer) 0 = false
        rw [hl]
        exact hblock1
      have hbp := bulletPass_player_blocked dt g.obstacles f.2.1 f.1 l.1
        (Or.inr hblock2)
      rw [hbp, hfp]
      show l.2.1.hp = p0.hp
      rw [hl, hp1def, hphp]
    · have hid : update o dt input mouseX mouseY g = g := by
        unfold update
        rw [if_pos hs]
      rw [hid, hp0]
      exact ⟨p0, rfl, rfl⟩
  · constructor
    · set_option maxRecDepth 100000 in with_unfolding_all decide
    · set_option maxRecDepth 400000 in with_unfolding_all decide

/-- The reset player halfway through the post-hit grace window. -/
def pGrace : Player := { resetPlayer with invulnerabilityTimer := num (1/2) }

/-- A RUN-state game with `pGrace` and one chaser sitting on it. -/
def gC3w : Game :=
  { gBase with player := some pGrace, enemies := [chaserOnPlayer] }

/-- Witness for the universally quantified part of C3 at a concrete
state: grace remaining 0.5 s, tick 0.1 s, overlapping chaser. -/
theorem postHit_grace_blocks_damage_witness :
    (0:ℚ) < 1/2 ∧ (1/10:ℚ) < 1/2 ∧
    ∃ p', (update oracleK (num (1/10)) inputNone (num 640) (num 360)
      gC3w).player = some p' ∧ p'.hp = pGrace.hp :=
  ⟨by norm_num, by norm_num,
    postHit_grace_blocks_damage.1 oracleK (num (1/10)) inputNone (num 640)
      (num 360) gC3w pGrace (1/2) (1/10) rfl rfl (by norm_num) rfl
      (by norm_num)⟩

/-- The reset player mid-dash: 0.2 s of dash remaining, invulnerable,
with a frozen dash velocity. -/
def pDash : Player :=
  { resetPlayer with dashTimer := num (1/5), isInvulnerable := true,
                     dashVx := num 900, dashVy := num 0,
                     dashCooldown := num (5/2) }

/-- A RUN-state game with the mid-dash player and a chaser sitting on it. -/
def gC4w : Game :=
  { gBase with player := some pDash, enemies := [chaserOnPlayer] }

/-- C4: in the RUN state, for any finite `dt`: (i) the invariant
"`isInvulnerable` holds exactly while `dashTimer` is positive" is
preserved by `update`; (ii) if the dash window extends past this tick
(`d < τ`), the dash is uninterrupted — the timer just decrements, the
frozen dash velocity is unchanged, invulnerability persists, and no
damage event (enemy contact or enemy bullet) reduces hp. -/
theorem dash_invulnerability (o : Oracle) (dt : JSNum) (input : Input)
    (mouseX mouseY : JSNum) (g : Game) (p0 : Player) (d : ℚ)
    (hRUN : g.state = GameState.RUN) (hp0 : g.player = some p0)
    (hdt : dt = num d) (hdash : p0.dashOk) :
    (∃ p', (update o dt input mouseX mouseY g).player = some p' ∧
      p'.dashOk) ∧
    (∀ τ : ℚ, p0.dashTimer = num τ → 0 < τ → d < τ →
      ∃ p', (update o dt input mouseX mouseY g).player = some p' ∧
        p'.hp = p0.hp ∧ p'.dashVx = p0.dashVx ∧ p'.dashVy = p0.dashVy ∧
        p'.dashTimer = num (τ - d) ∧ p'.isInvulnerable = true) := by
  rw [update_eq o dt input mouseX mouseY g p0 hRUN hp0]
  constructor
  · refine ⟨_, rfl, ?_⟩
    unfold stepPipeline
    dsimp only
    set w := wavePhase o dt g.enemies g.currentWave g.waveTimer g.randK
    set p1 := movePlayer o dt input mouseX mouseY g.obstacles p0 with hp1def
    set l := enemyLoop o dt g.obstacles 0 w.1.length w.1 p1 g.bullets w.2.2.2
      with hldef
    set f := firePhase o dt input l.2.1 l.2.2.1 l.2.2.2 with hfdef
    have hd1 : p1.dashOk := by
      rw [hp1def]
      exact movePlayer_dashOk o dt input mouseX mouseY g.obstacles p0 d hdt hdash
    obtain ⟨lh, lt, hlframe⟩ := enemyLoop_player_frame o dt g.obstacles
      w.1.length 0 w.1 p1 g.bullets w.2.2.2
    rw [← hldef] at hlframe
    obtain ⟨tl, hft, hfb, lf, hfp⟩ :=
      firePhase_spec o dt input l.2.1 l.2.2.1 l.2.2.2
    rw [← hfdef] at hfp
    obtain ⟨bh, bt, hbpf⟩ :=
      bulletPass_player_frame dt g.obstacles f.2.1 f.1 l.1
    obtain ⟨τ, ht1, ht2⟩ := hd1
    rw [hbpf, hfp, hlframe]
    exact ⟨τ, ht1, ht2⟩
  · intro τ hτ h0 hlt
    refine ⟨_, rfl, ?_⟩
    unfold stepPipeline
    dsimp only
    set w := wavePhase o dt g.enemies g.currentWave g.waveTimer g.randK
    set p1 := movePlayer o dt input mouseX mouseY g.obstacles p0 with hp1def
    set l := enemyLoop o dt g.obstacles 0 w.1.length w.1 p1 g.bullets w.2.2.2
      with hldef
    set f := firePhase o dt input l.2.1 l.2.2.1 l.2.2.2 with hfdef
    obtain ⟨hphp, hpmax, hpdmg, hpfr, hplf⟩ :=
      movePlayer_stats o dt input mouseX mouseY g.obstacles p0
    obtain ⟨hdtm, hinv, hdvx, hdvy⟩ :=
      movePlayer_dashActive o dt input mouseX mouseY g.obstacles p0 τ d hτ hdt
        h0 hlt
    have hinvT : p0.isInvulnerable = true := by
      obtain ⟨τ', ht1', ht2'⟩ := hdash
      have : τ' = τ := by
        rw [hτ] at ht1'
        exact (JSNum.num.injEq τ' τ).mp ht1'.symm
      exact ht2'.mpr (this ▸ h0)
    have hinv1 : p1.isInvulnerable = true := by
      rw [hp1def, hinv, hinvT]
    have hl := enemyLoop_player_blocked o dt g.obstacles w.1.length 0 w.1 p1
      g.bullets w.2.2.2 (Or.inl hinv1)
    rw [← hldef] at hl
    obtain ⟨tl, hft, hfb, lf, hfp⟩ :=
      firePhase_spec o dt input l.2.1 l.2.2.1 l.2.2.2
    rw [← hfdef] at hfp
    have hinv2 : (f.1).isInvulnerable = true := by
      rw [hfp]
      show l.2.1.isInvulnerable = true
      rw [hl]
      exact hinv1
    have hbp := bulletPass_player_blocked dt g.obstacles f.2.1 f.1 l.1
      (Or.inl hinv2)
    rw [hbp, hfp]
    have hfin : l.2.1 = p1 := hl
    refine ⟨?_, ?_, ?_, ?_, ?_⟩
    · show l.2.1.hp = p0.hp
      rw [hfin, hp1def, hphp]
    · show l.2.1.dashVx = p0.dashVx
      rw [hfin, hp1def, hdvx]
    · show l.2.1.dashVy = p0.dashVy
      rw [hfin, hp1def, hdvy]
    · show l.2.1.dashTimer = num (τ - d)
      rw [hfin, hp1def, hdtm]
    · show l.2.1.isInvulnerable = true
      rw [hfin, hinv1]

/-- Witness for C4 at a concrete state: mid-dash player (0.2 s left),
tick 0.1 s, overlapping chaser. -/
theorem dash_invulnerability_witness :
    (0:ℚ) < 1/5 ∧ (1/10:ℚ) < 1/5 ∧
    (∃ p', (update oracleK (num (1/10)) inputNone (num 640) (num 360)
        gC4w).player = some p' ∧ p'.dashOk) ∧
    (∃ p', (update oracleK (num (1/10)) inputNone (num 640) (num 360)
        gC4w).player = some p' ∧
      p'.hp = pDash.hp ∧ p'.dashVx = pDash.dashVx ∧
      p'.dashVy = pDash.dashVy ∧ p'.dashTimer = num (1/5 - 1/10) ∧
      p'.isInvulnerable = true) := by
  have h := dash_invulnerability oracleK (num (1/10)) inputNone (num 640)
    (num 360) gC4w pDash (1/10) rfl rfl rfl
    ⟨1/5, rfl, by constructor <;> intro <;> [norm_num; rfl]⟩
  exact ⟨by norm_num, by norm_num, h.1,
    h.2 (1/5) rfl (by norm_num) (by norm_num)⟩

/-- A RUN-state game with the reset player and one resting player bullet. -/
def gC6 : Game := { gBase with bullets := [bulletCenter] }

/-- C6: in the RUN state, every bullet still present when `update`
returns is strictly inside the arena bounds (by the code's own
center-based test) and overlaps no obstacle — bullets that leave the
interior or strike an obstacle are removed within the same tick. -/
theorem bullets_outside_or_on_obstacle_removed (o : Oracle) (dt : JSNum)
    (input : Input) (mouseX mouseY : JSNum) (g : Game) (p0 : Player)
    (hRUN : g.state = GameState.RUN) (hp0 : g.player = some p0) :
    ∀ b ∈ (update o dt input mouseX mouseY g).bullets,
      outOfArena b = false ∧
      ∀ ob ∈ g.obstacles, checkCollision b.toEnt ob = false := by
  rw [update_eq o dt input mouseX mouseY g p0 hRUN hp0]
  show ∀ b ∈ (stepPipeline o dt input mouseX mouseY g p0).2.1, _
  unfold stepPipeline
  dsimp only
  exact bulletPass_survivors dt g.obstacles _ _ _

/-- Witness for C6: the surviving center bullet after a concrete update. -/
theorem bullets_outside_or_on_obstacle_removed_witness :
    outOfArena bulletCenter = false ∧
    ∀ ob ∈ gC6.obstacles, checkCollision bulletCenter.toEnt ob = false :=
  bullets_outside_or_on_obstacle_removed oracleK (num (1/10)) inputNone
    (num 700) (num 360) gC6 resetPlayer rfl rfl bulletCenter
    (by set_option maxRecDepth 100000 in with_unfolding_all decide)

/-- C7: (i) in the RUN state, `lastFired` accumulates `dt` each tick and
resets to 0 exactly when the fire trigger is held and the accumulated
value has reached the inter-shot interval `1/fireRate`; (ii) with the
trigger held from reset (`fireRate = 3`), an update of 0.34 s yields
exactly one live bullet, a following 0.1 s update adds none, and a
further 0.24 s update yields a second. -/
theorem fire_rate_cadence :
    (∀ (o : Oracle) (dt : JSNum) (input : Input) (mouseX mouseY : JSNum)
       (g : Game) (p0 : Player),
       g.state = GameState.RUN → g.player = some p0 →
       ∃ p', (update o dt input mouseX mouseY g).player = some p' ∧
         p'.lastFired = (if input.mouseLeft &&
             jge (jadd p0.lastFired dt) (jdiv 1 p0.fireRate)
           then num 0 else jadd p0.lastFired dt)) ∧
    ((update oracleK (num (34/100)) inputFire (num 700) (num 360)
        gBase).bullets.length = 1 ∧
      (update oracleK (num (1/10)) inputFire (num 700) (num 360)
        (update oracleK (num (34/100)) inputFire (num 700) (num 360)
          gBase)).bullets.length = 1 ∧
      (update oracleK (num (24/100)) inputFire (num 700) (num 360)
        (update oracleK (num (1/10)) inputFire (num 700) (num 360)
          (update oracleK (num (34/100)) inputFire (num 700) (num 360)
            gBase))).bullets.length = 2) := by
  constructor
  · intro o dt input mouseX mouseY g p0 hRUN hp0
    rw [update_eq o dt input mouseX mouseY g p0 hRUN hp0]
    refine ⟨_, rfl, ?_⟩
    unfold stepPipeline
    dsimp only
    set w := wavePhase o dt g.enemies g.currentWave g.waveTimer g.randK
    set p1 := movePlayer o dt input mouseX mouseY g.obstacles p0 with hp1def
    set l := enemyLoop o dt g.obstacles 0 w.1.length w.1 p1 g.bullets w.2.2.2
      with hldef
    set f := firePhase o dt input l.2.1 l.2.2.1 l.2.2.2 with hfdef
    obtain ⟨hphp, hpmax, hpdmg, hpfr, hplf⟩ :=
      movePlayer_stats o dt input mouseX mouseY g.obstacles p0
    obtain ⟨lh, lt, hlframe⟩ := enemyLoop_player_frame o dt g.obstacles
      w.1.length 0 w.1 p1 g.bullets w.2.2.2
    rw [← hldef] at hlframe
    obtain ⟨bh, bt, hbpf⟩ :=
      bulletPass_player_frame dt g.obstacles f.2.1 f.1 l.1
    rw [hbpf]
    show f.1.lastFired = _
    rw [hfdef, firePhase_lastFired]
    have h1 : l.2.1.lastFired = p0.lastFired := by
      rw [hlframe]
      show p1.lastFired = p0.lastFired
      rw [hp1def, hplf]
    have h2 : l.2.1.fireRate = p0.fireRate := by
      rw [hlframe]
      show p1.fireRate = p0.fireRate
      rw [hp1def, hpfr]
    rw [h1, h2]
  · refine ⟨?_, ?_, ?_⟩
    · set_option maxRecDepth 100000 in with_unfolding_all decide
    · set_option maxRecDepth 400000 in with_unfolding_all decide
    · set_option maxRecDepth 800000 in with_unfolding_all decide

/-- Witness for the universally quantified part of C7: from reset with
the trigger held, a 0.34 s tick resets `lastFired` to 0 (a shot fired). -/
theorem fire_rate_cadence_witness :
    ∃ p', (update oracleK (num (34/100)) inputFire (num 700) (num 360)
        gBase).player = some p' ∧
      p'.lastFired = (if inputFire.mouseLeft &&
          jge (jadd resetPlayer.lastFired (num (34/100)))
            (jdiv 1 resetPlayer.fireRate)
        then num 0 else jadd resetPlayer.lastFired (num (34/100))) :=
  fire_rate_cadence.1 oracleK (num (34/100)) inputFire (num 700) (num 360)
    gBase resetPlayer rfl rfl

/-- C5: in the RUN state, from a reachable state (live enemies have
positive finite hp and clear deletion marks; hp and damages are finite
and in range): (i) every enemy still present when `update` returns has
strictly positive hp — an enemy whose hp crossed to `≤ 0` during the
tick is gone by the end of that same update; (ii) no enemy that ends the
tick with positive hp is removed by the end-of-tick cleanup. -/
theorem dead_enemies_removed_live_kept (o : Oracle) (dt : JSNum)
    (input : Input) (mouseX mouseY : JSNum) (g : Game) (p0 : Player)
    (hRUN : g.state = GameState.RUN) (hp0 : g.player = some p0)
    (hlive : ∀ e ∈ g.enemies, e.liveOk ∧ e.dmgOk)
    (h1 : p0.hpOk) (h2 : p0.dmgOk) (h4 : ∀ b ∈ g.bullets, b.dmgOk) :
    (∀ e ∈ (update o dt input mouseX mouseY g).enemies,
      ∃ h : ℚ, e.hp = num h ∧ 0 < h) ∧
    (∀ e ∈ (stepPipeline o dt input mouseX mouseY g p0).2.2.1,
      (∃ h : ℚ, e.hp = num h ∧ 0 < h) →
      e ∈ (update o dt input mouseX mouseY g).enemies) := by
  have hmd : ∀ e ∈ (stepPipeline o dt input mouseX mouseY g p0).2.2.1,
      e.mdOk := by
    obtain ⟨hphp, hpmax, hpdmg, hpfr, hplf⟩ :=
      movePlayer_stats o dt input mouseX mouseY g.obstacles p0
    unfold stepPipeline
    dsimp only
    set w := wavePhase o dt g.enemies g.currentWave g.waveTimer g.randK
      with hwdef
    set p1 := movePlayer o dt input mouseX mouseY g.obstacles p0 with hp1def
    set l := enemyLoop o dt g.obstacles 0 w.1.length w.1 p1 g.bullets w.2.2.2
      with hldef
    set f := firePhase o dt input l.2.1 l.2.2.1 l.2.2.2 with hfdef
    have hwl : ∀ e ∈ w.1, e.liveOk ∧ e.dmgOk := by
      rw [hwdef]
      exact wavePhase_enemies o dt g.enemies g.currentWave g.waveTimer
        g.randK hlive
    have hlm : ∀ e' ∈ l.1, e'.mdOk := by
      intro e' he'
      obtain ⟨e, he, a1, a2, a3, a4⟩ := enemyLoop_enemies o dt g.obstacles
        w.1.length 0 w.1 p1 g.bullets w.2.2.2 e'
        (by rw [hldef] at he'; exact he')
      obtain ⟨h, hh, hiff⟩ := (hwl e he).1.mdOk
      exact ⟨h, a1.trans hh, by rw [a4]; exact hiff⟩
    have h3' : ∀ e ∈ w.1, e.dmgOk := fun e he => (hwl e he).2
    have h1' : p1.hpOk := by
      obtain ⟨h, m, e1, e2, l1, l2⟩ := h1
      exact ⟨h, m, by rw [hp1def, hphp, e1], by rw [hp1def, hpmax, e2], l1, l2⟩
    obtain ⟨lhp, ldm⟩ := enemyLoop_inv o dt g.obstacles w.1.length 0 w.1 p1
      g.bullets w.2.2.2 h3' h1' h4
    rw [← hldef] at lhp ldm
    obtain ⟨lh, lt, hlframe⟩ := enemyLoop_player_frame o dt g.obstacles
      w.1.length 0 w.1 p1 g.bullets w.2.2.2
    rw [← hldef] at hlframe
    obtain ⟨tl, hft, hfb, lf, hfp⟩ :=
      firePhase_spec o dt input l.2.1 l.2.2.1 l.2.2.2
    rw [← hfdef] at hft
    have hfd : ∀ b ∈ f.2.1, b.dmgOk := by
      rw [hft]
      intro b hb
      rcases List.mem_append.mp hb with h | h
      · exact ldm b h
      · obtain ⟨d, hd1, hd2⟩ := h2
        have hdl : l.2.1.damage = num d := by
          rw [hlframe]
          show p1.damage = num d
          rw [hp1def, hpdmg, hd1]
        exact ⟨d, by rw [(hfb b h).2, hdl], hd2⟩
    exact bulletPass_enemies_mdOk dt g.obstacles f.2.1 f.1 l.1 hfd hlm
  rw [update_eq o dt input mouseX mouseY g p0 hRUN hp0]
  constructor
  · intro e he
    have hmem := List.mem_filter.mp he
    obtain ⟨h, hh, hiff⟩ := hmd e hmem.1
    refine ⟨h, hh, ?_⟩
    by_contra hle
    have : e.markedForDeletion = true := hiff.mpr (by linarith [not_lt.mp hle])
    rw [this] at hmem
    simp at hmem
  · intro e he hpos
    obtain ⟨h, hh, hiff⟩ := hmd e he
    obtain ⟨h', hh', hlt'⟩ := hpos
    have hhe : h = h' := by
      rw [hh] at hh'
      exact (JSNum.num.injEq h h').mp hh'
    have hmk : e.markedForDeletion = false := by
      cases hmk : e.markedForDeletion
      · rfl
      · exact absurd (hiff.mp hmk) (by rw [hhe]; linarith)
    exact List.mem_filter.mpr ⟨he, by rw [hmk]; rfl⟩

/-- Witness for C5 at a concrete reachable state: the reset player with
one live chaser overlapping it. -/
theorem dead_enemies_removed_live_kept_witness :
    (∀ e ∈ (update oracleK (num (1/10)) inputNone (num 640) (num 360)
        gC3).enemies, ∃ h : ℚ, e.hp = num h ∧ 0 < h) ∧
    (∀ e ∈ (stepPipeline oracleK (num (1/10)) inputNone (num 640) (num 360)
        gC3 resetPlayer).2.2.1,
      (∃ h : ℚ, e.hp = num h ∧ 0 < h) →
      e ∈ (update oracleK (num (1/10)) inputNone (num 640) (num 360)
        gC3).enemies) :=
  dead_enemies_removed_live_kept oracleK (num (1/10)) inputNone (num 640)
    (num 360) gC3 resetPlayer rfl rfl
    (by intro e he
        rw [show gC3.enemies = [chaserOnPlayer] from rfl,
          List.mem_singleton] at he
        subst he
        exact ⟨⟨ENEMY_CHASER_HP, rfl, by norm_num [ENEMY_CHASER_HP], rfl⟩,
          ⟨ENEMY_CHASER_DAMAGE, rfl, by norm_num [ENEMY_CHASER_DAMAGE]⟩⟩)
    ⟨PLAYER_MAX_HP, PLAYER_MAX_HP, rfl, rfl, by norm_num [PLAYER_MAX_HP],
      le_refl _⟩
    ⟨10, rfl, by norm_num⟩
    (by intro b hb
        rw [show gC3.bullets = ([] : List Bullet) from rfl] at hb
        exact absurd hb (List.not_mem_nil b))
